import Mathlib

/-!
ListBox (clui, `listbox.go`)

A shallow embedding of the state-changing part of the `ListBox` control:
the item collection (`AddItem`, `RemoveItem`, `Clear`, `FindItem`,
`SelectItem`, `SelectedItemText`, the capacity accessors), the viewport
repair `EnsureVisible`, the navigation (`home`, `end`, `moveUp`, `moveDown`),
the scrollbar geometry (`redrawScroll`, `recalcPositionByScroll`) and the input
handling (`ProcessEvent`, `processMouseClick`).

Conventions of the embedding:

* a method with a pointer receiver `func (l *ListBox) M(args) R` becomes a
  function `M : ListBox → args → ListBox × R` (state in, state and result
  out); a method without result returns the new state only;
* Go `int` is `Int`.  Where every integer is a list index or a row count the
  arithmetic is taken exactly; `EnsureVisible64` is `EnsureVisible` with the
  wrap-around of a 64-bit `int` at every operation, for statements about
  arbitrary field values;
* a slice of strings is a `List String`, `len` is `List.length`;
* an index expression that Go would abort on (index out of range) makes the
  function return `none`;
* `strings.EqualFold` belongs to the Go standard library; functions that call
  it take it as the parameter `eqFold`;
* `float32` values are rationals; the rounding of the `float32` operations and
  the result of converting a non-finite value to `int` are the two fields of
  the parameter `FloatModel`; `binary32` is the model with IEEE 754 rounding
  (round to nearest, ties to even, 24 significant bits);
* the callback started by `go l.onSelectItem(ev)` is not run: `ProcessEvent`
  returns the event that is handed to it.
-/

namespace Clui

/-- Modelled from the spec: the embedded `ControlBase` is declared outside
`listbox.go`.  Only the fields that `listbox.go` reads are kept: the position
`x`, `y`, the size `width`, `height` (the viewport), and the two flags behind
`Active()` and `Enabled()`. -/
structure ControlBase where
  x : Int
  y : Int
  width : Int
  height : Int
  active : Bool
  enabled : Bool
deriving DecidableEq, Repr

/-- The `ListBox` struct.  `onSelectItem` records whether a callback is
registered (`true`) or the field is `nil` (`false`). -/
structure ListBox extends ControlBase where
  items : List String
  currSelection : Int
  topLine : Int
  maxItems : Int
  buttonPos : Int
  onSelectItem : Bool
deriving DecidableEq, Repr

/-- `NewListBox`.  `AutoSize` is the constant of that name (declared outside
`listbox.go`), `base` is the embedded `ControlBase` as the parts of the
construction that are outside `listbox.go` leave it; `SetSize` is taken to store
the size it is given. -/
def NewListBox (AutoSize : Int) (base : ControlBase) (width height : Int) : ListBox :=
  let height := if height = AutoSize then 3 else height
  let width := if width = AutoSize then 5 else width
  { base with
    width := width
    height := height
    currSelection := -1
    items := []
    topLine := 0
    maxItems := 0
    buttonPos := -1
    onSelectItem := false }

/-- `EnsureVisible`: scroll so that the selected item is inside the viewport. -/
def EnsureVisible (l : ListBox) : ListBox :=
  let length : Int := l.items.length
  if length ≤ l.height ∨ l.currSelection = -1 then l
  else
    let diff := l.currSelection - l.topLine
    if 0 ≤ diff ∧ diff < l.height then l
    else if diff < 0 then { l with topLine := l.currSelection }
    else
      let top := l.currSelection - l.height + 1
      if length - top > l.height then { l with topLine := top }
      else { l with topLine := length - l.height }

/-- `Clear`: delete all items. -/
def Clear (l : ListBox) : ListBox :=
  { l with items := [], currSelection := -1, topLine := 0 }

/-- `RemoveItem`: `append(l.items[:id], l.items[id+1:]...)` inside the range,
`false` outside. -/
def RemoveItem (l : ListBox) (id : Int) : ListBox × Bool :=
  if id < 0 ∨ id ≥ l.items.length then (l, false)
  else ({ l with items := l.items.take id.toNat ++ l.items.drop (id.toNat + 1) }, true)

/-- `AddItem`: drop the first item when `maxItems > 0` and
`len(items) > maxItems`, then append. -/
def AddItem (l : ListBox) (item : String) : ListBox × Bool :=
  let l1 := if l.maxItems > 0 ∧ (l.items.length : Int) > l.maxItems then (RemoveItem l 0).1 else l
  ({ l1 with items := l1.items ++ [item] }, true)

/-- `SelectItem`: select `id` and scroll to it, `false` outside the range. -/
def SelectItem (l : ListBox) (id : Int) : ListBox × Bool :=
  if (l.items.length : Int) ≤ id ∨ id < 0 then (l, false)
  else (EnsureVisible { l with currSelection := id }, true)

/-- The condition of the `if` in the loop of `FindItem`. -/
def findMatch (eqFold : String → String → Bool) (text : String) (caseSensitive : Bool)
    (itm : String) : Bool :=
  itm == text || (caseSensitive && eqFold itm text)

/-- The `for idx, itm := range` loop of `FindItem`, started at index `idx` on
the items that remain. -/
def findLoop (eqFold : String → String → Bool) (text : String) (caseSensitive : Bool) :
    List String → Int → Int
  | [], _ => -1
  | itm :: rest, idx =>
    if findMatch eqFold text caseSensitive itm then idx
    else findLoop eqFold text caseSensitive rest (idx + 1)

/-- `FindItem`: index of the first item the loop condition accepts, else `-1`. -/
def FindItem (eqFold : String → String → Bool) (l : ListBox) (text : String)
    (caseSensitive : Bool) : ListBox × Int :=
  (l, findLoop eqFold text caseSensitive l.items 0)

/-- `SelectedItem`. -/
def SelectedItem (l : ListBox) : Int := l.currSelection

/-- `SelectedItemText`: `some ""` without selection, `some items[sel]` in
range, `none` when the index expression is out of range. -/
def SelectedItemText (l : ListBox) : Option String :=
  if l.currSelection = -1 then some ""
  else if l.currSelection < 0 then none
  else l.items.get? l.currSelection.toNat

/-- `MaxItems`. -/
def MaxItems (l : ListBox) : Int := l.maxItems

/-- `SetMaxItems`. -/
def SetMaxItems (l : ListBox) (max : Int) : ListBox := { l with maxItems := max }

/-- `ItemCount`. -/
def ItemCount (l : ListBox) : Int := l.items.length

/-- A call of the item API. -/
inductive ItemCall where
  | addItem (item : String)
  | removeItem (id : Int)
  | clear
  | selectItem (id : Int)
deriving DecidableEq, Repr

/-- The state after one call of the item API. -/
def ItemCall.apply (l : ListBox) : ItemCall → ListBox
  | .addItem item => (AddItem l item).1
  | .removeItem id => (RemoveItem l id).1
  | .clear => Clear l
  | .selectItem id => (SelectItem l id).1

/-- The call is a `RemoveItem`. -/
def ItemCall.isRemove : ItemCall → Bool
  | .removeItem _ => true
  | _ => false

/-- The state after a sequence of calls, first call first. -/
def runCalls (l : ListBox) (calls : List ItemCall) : ListBox :=
  calls.foldl ItemCall.apply l

/-- `AddItem` of each text in turn, first text first. -/
def addItems (l : ListBox) (texts : List String) : ListBox :=
  texts.foldl (fun s t => (AddItem s t).1) l

/-- Case folding of one ASCII code point: upper-case letters go to lower case. -/
def asciiFold (c : Nat) : Nat := if 65 ≤ c ∧ c ≤ 90 then c + 32 else c

/-- What `strings.EqualFold` computes on ASCII text: equality up to the case of
the letters `A`-`Z`. -/
def asciiEqualFold (s t : String) : Bool :=
  s.toList.map (fun c => asciiFold c.toNat) == t.toList.map (fun c => asciiFold c.toNat)

/-- The state invariant of the data model for viewport height `l.height`. -/
def StateInv (l : ListBox) : Prop :=
  -1 ≤ l.currSelection ∧ l.currSelection < l.items.length ∧ 0 ≤ l.topLine ∧
  (if (l.items.length : Int) > l.height then l.topLine ≤ l.items.length - l.height
   else l.topLine = 0)

instance (l : ListBox) : Decidable (StateInv l) := by
  unfold StateInv; infer_instance

/-- The selection lies inside the viewport. -/
def Visible (l : ListBox) : Prop :=
  l.topLine ≤ l.currSelection ∧ l.currSelection ≤ l.topLine + l.height - 1

instance (l : ListBox) : Decidable (Visible l) := by
  unfold Visible; infer_instance

/-- A list box of height 3 holding the given items, capacity and selection. -/
def sample (items : List String) (maxItems sel top : Int) : ListBox :=
  { x := 0, y := 0, width := 5, height := 3, active := true, enabled := true,
    items := items, currSelection := sel, topLine := top, maxItems := maxItems,
    buttonPos := -1, onSelectItem := false }

/-- A list box of the given height holding the given items, selection and
`topLine`, with unlimited capacity. -/
def sampleHeight (height : Int) (items : List String) (sel top : Int) : ListBox :=
  { x := 0, y := 0, width := 5, height := height, active := true, enabled := true,
    items := items, currSelection := sel, topLine := top, maxItems := 0,
    buttonPos := -1, onSelectItem := false }

/-- The match condition of `FindItem` in the words of the specification: the
item equals `text`, or `caseSensitive` is true and the item equals `text` under
case folding. -/
def SpecMatch (eqFold : String → String → Bool) (text : String) (caseSensitive : Bool)
    (itm : String) : Prop :=
  itm = text ∨ (caseSensitive = true ∧ eqFold itm text = true)

/-- Index `i` is the smallest index of `items` whose item satisfies
`SpecMatch`. -/
def IsFirstMatch (eqFold : String → String → Bool) (text : String) (caseSensitive : Bool)
    (items : List String) (i : Nat) : Prop :=
  (∃ itm, items.get? i = some itm ∧ SpecMatch eqFold text caseSensitive itm) ∧
  ∀ j : Nat, j < i → ∀ itm, items.get? j = some itm → ¬ SpecMatch eqFold text caseSensitive itm

/-! ## Navigation, scrollbar and input -/

/-- `home`: select the first item, if there is one, and scroll to the top. -/
def home (l : ListBox) : ListBox :=
  let l1 := if l.items.length > 0 then { l with currSelection := 0 } else l
  { l1 with topLine := 0 }

/-- The method `end` (a reserved word here, hence the underscore): select the
last item and show the last page. -/
def end_ (l : ListBox) : ListBox :=
  let length : Int := l.items.length
  if length = 0 then l
  else
    let l1 := { l with currSelection := length - 1 }
    if length > l1.height then { l1 with topLine := length - l1.height } else l1

/-- `moveUp`. -/
def moveUp (l : ListBox) : ListBox :=
  if l.topLine = 0 ∧ l.currSelection = 0 then l
  else if l.currSelection = -1 then
    if l.items.length ≠ 0 then { l with currSelection := 0 } else l
  else EnsureVisible { l with currSelection := l.currSelection - 1 }

/-- `moveDown`. -/
def moveDown (l : ListBox) : ListBox :=
  let length : Int := l.items.length
  if length = 0 ∨ l.currSelection = length - 1 then l
  else EnsureVisible { l with currSelection := l.currSelection + 1 }

/-- `OnSelectItem`: register (`true`) or remove (`false`, a `nil` function) the
callback. -/
def OnSelectItem (l : ListBox) (fn : Bool) : ListBox := { l with onSelectItem := fn }

/-- The `float32` arithmetic of the two scrollbar functions.  `rnd` is the
rounding that every conversion to `float32` and every `float32` operation
applies to its exact result (`id` is exact rational arithmetic); `undef` is the
integer that the conversion `int(x)` yields for the non-finite `x` of a division
by zero, which Go leaves to the implementation (its argument is the
numerator). -/
structure FloatModel where
  rnd : ℚ → ℚ
  undef : ℚ → Int

/-- Exact rational arithmetic. -/
def exactArith : FloatModel := { rnd := id, undef := fun _ => 0 }

/-- The conversion `int(x)` of a finite `x`: the fraction is discarded
(truncation towards zero). -/
def truncToInt (q : ℚ) : Int := if 0 ≤ q then ⌊q⌋ else ⌈q⌉

/-- `redrawScroll`: the new state (the thumb row is cached in `buttonPos`) and
the position `pos` that is passed to `canvas.DrawScroll`. -/
def redrawScroll (fm : FloatModel) (l : ListBox) : ListBox × Int :=
  if l.currSelection ≠ -1 then
    if (l.items.length : Int) > 1 then
      let ydiff := truncToInt (fm.rnd (fm.rnd (fm.rnd (l.currSelection : ℚ) /
        fm.rnd (((l.items.length : Int) - 1 : Int) : ℚ)) * fm.rnd ((l.height - 3 : Int) : ℚ)))
      let l1 := { l with buttonPos := ydiff + 1 }
      if l1.height = 3 then (l1, 1) else (l1, l1.buttonPos)
    else (l, 1)
  else (l, -1)

/-- `recalcPositionByScroll`: the selection that belongs to the thumb row
`buttonPos`, clamped to the item range, then `EnsureVisible`. -/
def recalcPositionByScroll (fm : FloatModel) (l : ListBox) : ListBox :=
  if (l.items.length : Int) < 2 then l
  else
    let num := fm.rnd (fm.rnd (((l.items.length : Int) - 1 : Int) : ℚ) *
      fm.rnd ((l.buttonPos - 1 : Int) : ℚ))
    let den := fm.rnd ((l.height - 3 : Int) : ℚ)
    let newPos : Int :=
      if den = 0 then fm.undef num
      else truncToInt (fm.rnd (fm.rnd (num / den) + fm.rnd (9 / 10)))
    let newPos : Int :=
      if newPos < 0 then 0
      else if newPos ≥ l.items.length then (l.items.length : Int) - 1
      else newPos
    EnsureVisible { l with currSelection := newPos }

/-- Modelled from the spec: the event types are declared outside `listbox.go`;
`other` stands for every type that is neither `EventKey` nor `EventMouse`. -/
inductive EventType where
  | EventKey
  | EventMouse
  | other
deriving DecidableEq, Repr

/-- Modelled from the spec: the key constants of the terminal library that
`listbox.go` names (`KeyCtrlM` is the Enter key); `other` stands for every other
key or mouse button. -/
inductive Key where
  | KeyHome
  | KeyEnd
  | KeyArrowUp
  | KeyArrowDown
  | KeyCtrlM
  | MouseLeft
  | other (code : Nat)
deriving DecidableEq, Repr

/-- Modelled from the spec: the `Event` struct is declared outside `listbox.go`;
these are the fields that `listbox.go` reads. -/
structure Event where
  type : EventType
  key : Key
  x : Int
  y : Int
  msg : String
deriving DecidableEq, Repr

/-- The event `Event{Y: ..., Msg: ...}` that is handed to `onSelectItem`: its
two fields that are filled. -/
structure SelectEvent where
  Y : Int
  Msg : String
deriving DecidableEq, Repr

/-- What a call of `ProcessEvent` leaves: the new state, the boolean result and
the event handed to `onSelectItem`, if the callback was started. -/
structure Outcome where
  state : ListBox
  handled : Bool
  emitted : Option SelectEvent
deriving DecidableEq, Repr

/-- `processMouseClick`; `none` when `SelectedItemText` indexes out of range. -/
def processMouseClick (fm : FloatModel) (l : ListBox) (ev : Event) : Option Outcome :=
  if ev.key ≠ Key.MouseLeft then some ⟨l, false, none⟩
  else
    let dx := ev.x - l.x
    let dy := ev.y - l.y
    if dx = l.width - 1 then
      if dy < 0 ∨ dy ≥ l.height ∨ (l.items.length : Int) < 2 then some ⟨l, true, none⟩
      else if dy = 0 then some ⟨moveUp l, true, none⟩
      else if dy = l.height - 1 then some ⟨moveDown l, true, none⟩
      else some ⟨recalcPositionByScroll fm { l with buttonPos := dy }, true, none⟩
    else if dx < 0 ∨ dx ≥ l.width ∨ dy < 0 ∨ dy ≥ l.height then some ⟨l, true, none⟩
    else if dy ≥ l.items.length then some ⟨l, true, none⟩
    else
      let l1 := (SelectItem l (l.topLine + dy)).1
      if l1.onSelectItem = true then
        match SelectedItemText l1 with
        | none => none
        | some msg => some ⟨l1, true, some ⟨l1.topLine + dy, msg⟩⟩
      else some ⟨l1, true, none⟩

/-- `ProcessEvent`; `none` when `SelectedItemText` indexes out of range. -/
def ProcessEvent (fm : FloatModel) (l : ListBox) (event : Event) : Option Outcome :=
  if l.active = false ∨ l.enabled = false then some ⟨l, false, none⟩
  else
    match event.type with
    | .EventKey =>
      match event.key with
      | .KeyHome => some ⟨home l, true, none⟩
      | .KeyEnd => some ⟨end_ l, true, none⟩
      | .KeyArrowUp => some ⟨moveUp l, true, none⟩
      | .KeyArrowDown => some ⟨moveDown l, true, none⟩
      | .KeyCtrlM =>
        if l.currSelection ≠ -1 ∧ l.onSelectItem = true then
          match SelectedItemText l with
          | none => none
          | some msg => some ⟨l, false, some ⟨l.currSelection, msg⟩⟩
        else some ⟨l, false, none⟩
      | _ => some ⟨l, false, none⟩
    | .EventMouse => processMouseClick fm l event
    | .other => some ⟨l, false, none⟩

/-- A key event. -/
def keyEvent (k : Key) : Event := { type := .EventKey, key := k, x := 0, y := 0, msg := "" }

/-- A left click at the absolute position `x`, `y`. -/
def clickEvent (x y : Int) : Event :=
  { type := .EventMouse, key := .MouseLeft, x := x, y := y, msg := "" }

/-- The predicate `Inv`: the state invariant, no scrolling without a selection,
and a selection inside the viewport. -/
def Inv (l : ListBox) : Prop :=
  StateInv l ∧ (l.currSelection = -1 → l.topLine = 0) ∧ (l.currSelection ≠ -1 → Visible l)

/-- The thumb row that `redrawScroll` computes from selection `s` in a list box
of `N` items and height `H`, followed by `recalcPositionByScroll`: the selection
after the round trip. -/
def roundTrip (fm : FloatModel) (l : ListBox) : Int :=
  (recalcPositionByScroll fm (redrawScroll fm l).1).currSelection

/-! ## 64-bit integers and `float32` -/

/-- The value that 64-bit two's-complement arithmetic gives for the exact result
`x`: Go's `int` on a 64-bit platform wraps around silently. -/
def wrap64 (x : Int) : Int :=
  (x + 9223372036854775808) % 18446744073709551616 - 9223372036854775808

/-- The value fits a 64-bit `int`. -/
def IsInt64 (x : Int) : Prop := -9223372036854775808 ≤ x ∧ x < 9223372036854775808

/-- A state that a 64-bit Go program can hold: the three `int` fields that
`EnsureVisible` reads are 64-bit values, and the slice of 16-byte string headers
fits the address space, so it has fewer than `2^60` elements. -/
def Representable (l : ListBox) : Prop :=
  IsInt64 l.currSelection ∧ IsInt64 l.topLine ∧ IsInt64 l.height ∧
  (l.items.length : Int) < 1152921504606846976

/-- `EnsureVisible` with the wrap-around of Go's 64-bit `int` at every
subtraction and addition of the source. -/
def EnsureVisible64 (l : ListBox) : ListBox :=
  let length : Int := l.items.length
  if length ≤ l.height ∨ l.currSelection = -1 then l
  else
    let diff := wrap64 (l.currSelection - l.topLine)
    if 0 ≤ diff ∧ diff < l.height then l
    else if diff < 0 then { l with topLine := l.currSelection }
    else
      let top := wrap64 (wrap64 (l.currSelection - l.height) + 1)
      if wrap64 (length - top) > l.height then { l with topLine := top }
      else { l with topLine := wrap64 (length - l.height) }

/-- The value of `topLine` after `EnsureVisible64`. -/
def newTop64 (n sel top H : Int) : Int :=
  if n ≤ H ∨ sel = -1 then top
  else if 0 ≤ wrap64 (sel - top) ∧ wrap64 (sel - top) < H then top
  else if wrap64 (sel - top) < 0 then sel
  else if wrap64 (n - wrap64 (wrap64 (sel - H) + 1)) > H then wrap64 (wrap64 (sel - H) + 1)
  else wrap64 (n - H)

instance (x : Int) : Decidable (IsInt64 x) := by
  unfold IsInt64; infer_instance

instance (l : ListBox) : Decidable (Representable l) := by
  unfold Representable; infer_instance

/-- The power `2^z` for an integer exponent. -/
def pow2 (z : Int) : ℚ :=
  if 0 ≤ z then ((2 ^ z.toNat : Nat) : ℚ) else 1 / ((2 ^ (-z).toNat : Nat) : ℚ)

/-- Rounding to the nearest integer, ties to the even one. -/
def roundHalfEven (q : ℚ) : Int :=
  if q - ⌊q⌋ < 1 / 2 then ⌊q⌋
  else if 1 / 2 < q - ⌊q⌋ then ⌊q⌋ + 1
  else if ⌊q⌋ % 2 = 0 then ⌊q⌋ else ⌊q⌋ + 1

/-- The position of the leading binary digit of `n`, counted from 0, by repeated
halving (`fuel` bounds the number of halvings). -/
def bitPos : Nat → Nat → Nat
  | 0, _ => 0
  | fuel + 1, n => if n < 2 then 0 else bitPos fuel (n / 2) + 1

/-- The binary exponent of a positive rational: the `e` with `2^e <= a < 2^(e+1)`. -/
def binExp (a : ℚ) : Int :=
  if pow2 ((bitPos a.num.toNat a.num.toNat : Int) - (bitPos a.den a.den : Int)) ≤ a then
    (bitPos a.num.toNat a.num.toNat : Int) - (bitPos a.den a.den : Int)
  else (bitPos a.num.toNat a.num.toNat : Int) - (bitPos a.den a.den : Int) - 1

/-- Rounding of an exact result to IEEE 754 binary32 (`float32`): 24 significant
bits, round to nearest, ties to even.  The exponent range is not limited (the
values of the scrollbar arithmetic are far from overflow and underflow). -/
def rnd32 (q : ℚ) : ℚ :=
  if q = 0 then 0
  else if q < 0 then
    -((roundHalfEven (-q * pow2 (23 - binExp (-q))) : Int) : ℚ) * pow2 (binExp (-q) - 23)
  else ((roundHalfEven (q * pow2 (23 - binExp q)) : Int) : ℚ) * pow2 (binExp q - 23)

/-- The arithmetic of Go's `float32`: binary32 rounding, and for the conversion of
a non-finite value to `int` the smallest 64-bit integer, as on amd64. -/
def binary32 : FloatModel := { rnd := rnd32, undef := fun _ => -9223372036854775808 }

/-- What the rounding of `float32` arithmetic guarantees for the values of the
scrollbar computation: integers up to `2^24` are exact, and a result between
`2^-14` and `2^14` is rounded with a relative error of at most `2^-24`.  Round to
nearest into 24 significant bits has both properties, and so has exact
arithmetic. -/
def RoundsLike32 (rnd : ℚ → ℚ) : Prop :=
  (∀ n : Int, -16777216 ≤ n → n ≤ 16777216 → rnd (n : ℚ) = n) ∧
  (∀ x : ℚ, 1 / 16384 ≤ x → x ≤ 16384 →
    x - x / 16777216 ≤ rnd x ∧ rnd x ≤ x + x / 16777216)


/-! ## Frame lemmas -/

theorem EnsureVisible_items (l : ListBox) : (EnsureVisible l).items = l.items := by
  unfold EnsureVisible
  simp only []
  split_ifs <;> rfl

theorem EnsureVisible_currSelection (l : ListBox) :
    (EnsureVisible l).currSelection = l.currSelection := by
  unfold EnsureVisible
  simp only []
  split_ifs <;> rfl

theorem EnsureVisible_height (l : ListBox) : (EnsureVisible l).height = l.height := by
  unfold EnsureVisible
  simp only []
  split_ifs <;> rfl

theorem EnsureVisible_maxItems (l : ListBox) : (EnsureVisible l).maxItems = l.maxItems := by
  unfold EnsureVisible
  simp only []
  split_ifs <;> rfl

/-! ## Capacity (C1, C2) -/

/-- Whatever the capacity `k > 0`, adding to a list box that holds exactly `k`
items evicts nothing: the test is `len(items) > maxItems`, so the list grows to
`k + 1` items. -/
theorem AddItem_at_capacity (l : ListBox) (item : String)
    (hfull : (l.items.length : Int) = l.maxItems) :
    (AddItem l item).1.items = l.items ++ [item] := by
  simp [AddItem, hfull]

/-- C1 (capacity bound), evaluated on the code: a list box of capacity 3 that
holds the 3 items a, b, c satisfies the bound, and after `AddItem("d")` it holds
4 items, one more than its capacity. -/
theorem C1_AddItem_exceeds_capacity :
    (sample ["a", "b", "c"] 3 (-1) 0).maxItems = 3 ∧
    (sample ["a", "b", "c"] 3 (-1) 0).items.length = 3 ∧
    (AddItem (sample ["a", "b", "c"] 3 (-1) 0) "d").2 = true ∧
    (AddItem (sample ["a", "b", "c"] 3 (-1) 0) "d").1.items.length = 4 ∧
    (AddItem (sample ["a", "b", "c"] 3 (-1) 0) "d").1.maxItems = 3 := by
  decide

/-- C2 (FIFO content), evaluated on the code with k = 3 and m = 1: starting from
a new, empty list box with `SetMaxItems(3)`, adding a, b, c, d leaves all four
items a, b, c, d and not the last three b, c, d; one more `AddItem("e")` then
evicts a and leaves the last four, b, c, d, e. -/
theorem C2_addItems_keeps_one_more (AutoSize : Int) (base : ControlBase) (width height : Int) :
    (addItems (SetMaxItems (NewListBox AutoSize base width height) 3)
        ["a", "b", "c", "d"]).items = ["a", "b", "c", "d"] ∧
    (addItems (SetMaxItems (NewListBox AutoSize base width height) 3)
        ["a", "b", "c", "d"]).items ≠ ["b", "c", "d"] ∧
    (addItems (SetMaxItems (NewListBox AutoSize base width height) 3)
        ["a", "b", "c", "d", "e"]).items = ["b", "c", "d", "e"] ∧
    (AddItem (sample ["a", "b", "c"] 3 (-1) 0) "d").1.items = ["a", "b", "c", "d"] := by
  simp [addItems, AddItem, SetMaxItems, NewListBox, RemoveItem, sample]

/-! ## The item API on a new list box (C3, C4, C6) -/

/-- C3 (state invariant over the item API), evaluated on the code: on a new list
box of height 3 the calls `AddItem("a")`, `SelectItem(0)`, `RemoveItem(0)` leave
selection 0 in an empty list, so `selection < len(items)` fails after the last
call (it holds after the first two); and after four `AddItem`, `SelectItem(3)`
and `RemoveItem(3)` three items fit the viewport while `topLine` is 1, not 0. -/
theorem C3_invariant_broken_by_RemoveItem (AutoSize : Int) (base : ControlBase) (width : Int) :
    (NewListBox AutoSize base width 3).height = 3 ∧
    StateInv (NewListBox AutoSize base width 3) ∧
    StateInv (runCalls (NewListBox AutoSize base width 3) [.addItem "a"]) ∧
    StateInv (runCalls (NewListBox AutoSize base width 3) [.addItem "a", .selectItem 0]) ∧
    (runCalls (NewListBox AutoSize base width 3)
      [.addItem "a", .selectItem 0, .removeItem 0]).currSelection = 0 ∧
    (runCalls (NewListBox AutoSize base width 3)
      [.addItem "a", .selectItem 0, .removeItem 0]).items = [] ∧
    ¬ StateInv (runCalls (NewListBox AutoSize base width 3)
      [.addItem "a", .selectItem 0, .removeItem 0]) ∧
    (runCalls (NewListBox AutoSize base width 3)
      [.addItem "a", .addItem "b", .addItem "c", .addItem "d", .selectItem 3,
       .removeItem 3]).items = ["a", "b", "c"] ∧
    (runCalls (NewListBox AutoSize base width 3)
      [.addItem "a", .addItem "b", .addItem "c", .addItem "d", .selectItem 3,
       .removeItem 3]).topLine = 1 := by
  simp [runCalls, ItemCall.apply, AddItem, SelectItem, RemoveItem, EnsureVisible, NewListBox,
    StateInv]

/-- C4 (`SelectedItemText` on reachable states), evaluated on the code: on a new
list box of height 3, after `AddItem("a")`, `SelectItem(0)`, `RemoveItem(0)` the
list is empty and the selection is still 0, so the index expression
`items[selection]` of `SelectedItemText` is out of range; likewise after
`AddItem("a")`, `AddItem("b")`, `SelectItem(1)`, `RemoveItem(0)`, where the
selection is 1 and one item is left. -/
theorem C4_SelectedItemText_out_of_range (AutoSize : Int) (base : ControlBase) (width : Int) :
    (runCalls (NewListBox AutoSize base width 3)
      [.addItem "a", .selectItem 0, .removeItem 0]).items = [] ∧
    (runCalls (NewListBox AutoSize base width 3)
      [.addItem "a", .selectItem 0, .removeItem 0]).currSelection = 0 ∧
    SelectedItemText (runCalls (NewListBox AutoSize base width 3)
      [.addItem "a", .selectItem 0, .removeItem 0]) = none ∧
    (runCalls (NewListBox AutoSize base width 3)
      [.addItem "a", .addItem "b", .selectItem 1, .removeItem 0]).currSelection = 1 ∧
    (runCalls (NewListBox AutoSize base width 3)
      [.addItem "a", .addItem "b", .selectItem 1, .removeItem 0]).items = ["b"] ∧
    SelectedItemText (runCalls (NewListBox AutoSize base width 3)
      [.addItem "a", .addItem "b", .selectItem 1, .removeItem 0]) = none := by
  simp [runCalls, ItemCall.apply, AddItem, SelectItem, RemoveItem, EnsureVisible, NewListBox,
    SelectedItemText]

/-- C6 (`SelectItem` makes the item visible), evaluated on the code: on a new
list box of height 3, after four `AddItem`, `SelectItem(3)` (which scrolls to
`topLine = 1`) and `RemoveItem(3)`, the call `SelectItem(0)` returns true and
selects item 0, but `EnsureVisible` returns at once because the three items fit
the viewport: `topLine` stays 1 and the selected row 0 is above the viewport. -/
theorem C6_SelectItem_not_visible (AutoSize : Int) (base : ControlBase) (width : Int) :
    (SelectItem (runCalls (NewListBox AutoSize base width 3)
      [.addItem "a", .addItem "b", .addItem "c", .addItem "d", .selectItem 3,
       .removeItem 3]) 0).2 = true ∧
    (SelectItem (runCalls (NewListBox AutoSize base width 3)
      [.addItem "a", .addItem "b", .addItem "c", .addItem "d", .selectItem 3,
       .removeItem 3]) 0).1.currSelection = 0 ∧
    (SelectItem (runCalls (NewListBox AutoSize base width 3)
      [.addItem "a", .addItem "b", .addItem "c", .addItem "d", .selectItem 3,
       .removeItem 3]) 0).1.topLine = 1 ∧
    (SelectItem (runCalls (NewListBox AutoSize base width 3)
      [.addItem "a", .addItem "b", .addItem "c", .addItem "d", .selectItem 3,
       .removeItem 3]) 0).1.height = 3 ∧
    ¬ Visible (SelectItem (runCalls (NewListBox AutoSize base width 3)
      [.addItem "a", .addItem "b", .addItem "c", .addItem "d", .selectItem 3,
       .removeItem 3]) 0).1 := by
  simp [runCalls, ItemCall.apply, AddItem, SelectItem, RemoveItem, EnsureVisible, NewListBox,
    Visible]

/-! ## `SelectItem` and `RemoveItem` (C5, C7) -/

/-- C5 (`SelectItem` result and atomicity): `SelectItem(id)` returns true exactly
when `0 <= id < len(items)`; when it returns false the whole state is unchanged;
when it returns true the selection is `id` and the items (and `maxItems`) are
unchanged. -/
theorem C5_SelectItem_contract (l : ListBox) (id : Int) :
    ((SelectItem l id).2 = true ↔ 0 ≤ id ∧ id < l.items.length) ∧
    ((SelectItem l id).2 = false → (SelectItem l id).1 = l) ∧
    ((SelectItem l id).2 = true →
      (SelectItem l id).1.currSelection = id ∧ (SelectItem l id).1.items = l.items ∧
      (SelectItem l id).1.maxItems = l.maxItems) := by
  by_cases h : (l.items.length : Int) ≤ id ∨ id < 0
  · have e : SelectItem l id = (l, false) := if_pos h
    rw [e]
    exact ⟨⟨fun hf => by simp at hf, fun hr => by omega⟩, fun _ => rfl, fun hf => by simp at hf⟩
  · have e : SelectItem l id = (EnsureVisible { l with currSelection := id }, true) := if_neg h
    rw [e]
    refine ⟨⟨fun _ => by omega, fun _ => rfl⟩, fun hf => by simp at hf, fun _ => ?_⟩
    simp [EnsureVisible_currSelection, EnsureVisible_items, EnsureVisible_maxItems]

/-- C7 (`RemoveItem` contract): `RemoveItem(id)` returns true exactly when
`0 <= id < len(items)`; on false the state is unchanged; on true the new list is
the old one with the element at position `id` erased: it is one shorter, the
items before `id` keep their position, the items after `id` move up by one, and
selection, `topLine` and `maxItems` are unchanged. -/
theorem C7_RemoveItem_contract (l : ListBox) (id : Int) :
    ((RemoveItem l id).2 = true ↔ 0 ≤ id ∧ id < l.items.length) ∧
    ((RemoveItem l id).2 = false → (RemoveItem l id).1 = l) ∧
    ((RemoveItem l id).2 = true →
      (RemoveItem l id).1.items = l.items.eraseIdx id.toNat ∧
      (RemoveItem l id).1.items.length + 1 = l.items.length ∧
      (∀ j : Nat, j < id.toNat → (RemoveItem l id).1.items.get? j = l.items.get? j) ∧
      (∀ j : Nat, id.toNat ≤ j → (RemoveItem l id).1.items.get? j = l.items.get? (j + 1)) ∧
      (RemoveItem l id).1.currSelection = l.currSelection ∧
      (RemoveItem l id).1.topLine = l.topLine ∧
      (RemoveItem l id).1.maxItems = l.maxItems) := by
  by_cases h : id < 0 ∨ id ≥ l.items.length
  · have e : RemoveItem l id = (l, false) := if_pos h
    rw [e]
    exact ⟨⟨fun hf => by simp at hf, fun hr => by omega⟩, fun _ => rfl, fun hf => by simp at hf⟩
  · have e : RemoveItem l id =
        ({ l with items := l.items.take id.toNat ++ l.items.drop (id.toNat + 1) }, true) :=
      if_neg h
    rw [e]
    refine ⟨⟨fun _ => by omega, fun _ => rfl⟩, fun hf => by simp at hf, fun _ => ?_⟩
    have hlt : id.toNat < l.items.length := by omega
    have herase : l.items.take id.toNat ++ l.items.drop (id.toNat + 1)
        = l.items.eraseIdx id.toNat := by
      rw [List.eraseIdx_eq_take_drop_succ]
    refine ⟨herase, ?_, ?_, ?_, rfl, rfl, rfl⟩
    · simp only [herase, List.length_eraseIdx, hlt, if_true]
      omega
    · intro j hj
      simp only [herase, List.get?_eq_getElem?]
      rw [List.getElem?_eraseIdx]
      simp [hj]
    · intro j hj
      simp only [herase, List.get?_eq_getElem?]
      rw [List.getElem?_eraseIdx]
      have : ¬ j < id.toNat := by omega
      simp [this]

/-! ## `FindItem` (C8, C9) -/

theorem findMatch_iff (eqFold : String → String → Bool) (text : String) (cs : Bool)
    (itm : String) : findMatch eqFold text cs itm = true ↔ SpecMatch eqFold text cs itm := by
  simp [findMatch, SpecMatch]

/-- The loop started at index `idx` returns `-1` when no remaining item matches,
and otherwise `idx` plus the position of the first remaining item that does. -/
theorem findLoop_first (eqFold : String → String → Bool) (text : String) (cs : Bool)
    (items : List String) (idx : Int) :
    (findLoop eqFold text cs items idx = -1 ∧ ∀ itm ∈ items, ¬ SpecMatch eqFold text cs itm) ∨
    (∃ i : Nat, findLoop eqFold text cs items idx = idx + i ∧
      IsFirstMatch eqFold text cs items i) := by
  induction items generalizing idx with
  | nil => left; simp [findLoop]
  | cons itm rest ih =>
    by_cases hm : findMatch eqFold text cs itm = true
    · right
      refine ⟨0, by simp [findLoop, hm], ⟨itm, by simp, (findMatch_iff _ _ _ _).1 hm⟩, ?_⟩
      intro j hj
      omega
    · have hs : ¬ SpecMatch eqFold text cs itm := fun h => hm ((findMatch_iff _ _ _ _).2 h)
      have e : findLoop eqFold text cs (itm :: rest) idx
          = findLoop eqFold text cs rest (idx + 1) := by
        simp [findLoop, hm]
      rcases ih (idx + 1) with ⟨h1, h2⟩ | ⟨i, h1, ⟨x, hx, hxm⟩, h3⟩
      · left
        refine ⟨by rw [e, h1], ?_⟩
        intro y hy
        rcases List.mem_cons.1 hy with rfl | hy
        · exact hs
        · exact h2 y hy
      · right
        refine ⟨i + 1, by rw [e, h1]; push_cast; ring, ⟨x, by simpa using hx, hxm⟩, ?_⟩
        intro j hj y hy
        cases j with
        | zero =>
          simp at hy
          subst hy
          exact hs
        | succ j =>
          exact h3 j (by omega) y (by simpa using hy)

/-- C8 (`FindItem` reference semantics): `FindItem(text, caseSensitive)` leaves
the state unchanged and returns either `-1`, and then no item equals `text` or
(with `caseSensitive` true) equals it under case folding, or the smallest index
whose item does.  With `caseSensitive = false` the item at a returned index is
exactly `text`, and `FindItem("Foo", false)` over foo, bar is `-1`. -/
theorem C8_FindItem_first_match (eqFold : String → String → Bool) (l : ListBox)
    (text : String) (caseSensitive : Bool) :
    (FindItem eqFold l text caseSensitive).1 = l ∧
    (((FindItem eqFold l text caseSensitive).2 = -1 ∧
        ∀ itm ∈ l.items, ¬ SpecMatch eqFold text caseSensitive itm) ∨
      (∃ i : Nat, (FindItem eqFold l text caseSensitive).2 = i ∧
        IsFirstMatch eqFold text caseSensitive l.items i)) ∧
    (∀ i : Nat, (FindItem eqFold l text false).2 = i → l.items.get? i = some text) ∧
    (FindItem eqFold (sample ["foo", "bar"] 0 (-1) 0) "Foo" false).2 = -1 := by
  refine ⟨rfl, ?_, ?_, ?_⟩
  · simpa [FindItem] using findLoop_first eqFold text caseSensitive l.items 0
  · intro i hi
    rcases findLoop_first eqFold text false l.items 0 with ⟨h1, _⟩ | ⟨k, h1, ⟨x, hx, hxm⟩, _⟩
    · simp only [FindItem] at hi
      omega
    · simp only [FindItem] at hi
      have hk : k = i := by omega
      subst hk
      rcases hxm with rfl | ⟨hf, _⟩
      · exact hx
      · simp at hf
  · simp [FindItem, findLoop, findMatch, sample]

/-- C9 (case-sensitive search finds only equal text), evaluated on the code:
over the single item foo, `FindItem("Foo", true)` returns index 0 although the
item at index 0 differs from the text searched for in the case of its first
letter; the case-insensitive call `FindItem("Foo", false)` returns `-1`. -/
theorem C9_FindItem_caseSensitive_folds :
    asciiEqualFold "foo" "Foo" = true ∧
    (FindItem asciiEqualFold (sample ["foo"] 0 (-1) 0) "Foo" true).2 = 0 ∧
    (sample ["foo"] 0 (-1) 0).items.get? 0 = some "foo" ∧
    "foo" ≠ "Foo" ∧
    (FindItem asciiEqualFold (sample ["foo"] 0 (-1) 0) "Foo" false).2 = -1 := by
  decide

/-! ## `EnsureVisible` (C10) -/

/-- The four outcomes of `EnsureVisible`, branch by branch. -/
theorem EnsureVisible_cases (l : ListBox) :
    (((l.items.length : Int) ≤ l.height ∨ l.currSelection = -1 ∨
        (0 ≤ l.currSelection - l.topLine ∧ l.currSelection - l.topLine < l.height)) ∧
      EnsureVisible l = l) ∨
    (l.height < (l.items.length : Int) ∧ l.currSelection ≠ -1 ∧
      l.currSelection - l.topLine < 0 ∧
      EnsureVisible l = { l with topLine := l.currSelection }) ∨
    (l.height < (l.items.length : Int) ∧ l.currSelection ≠ -1 ∧
      l.height ≤ l.currSelection - l.topLine ∧
      (l.items.length : Int) - (l.currSelection - l.height + 1) > l.height ∧
      EnsureVisible l = { l with topLine := l.currSelection - l.height + 1 }) ∨
    (l.height < (l.items.length : Int) ∧ l.currSelection ≠ -1 ∧
      l.height ≤ l.currSelection - l.topLine ∧
      (l.items.length : Int) - (l.currSelection - l.height + 1) ≤ l.height ∧
      EnsureVisible l = { l with topLine := (l.items.length : Int) - l.height }) := by
  unfold EnsureVisible
  simp only []
  split_ifs with h1 h2 h3 h4
  · left
    exact ⟨by omega, rfl⟩
  · left
    exact ⟨by omega, rfl⟩
  · right; left
    exact ⟨by omega, by omega, h3, rfl⟩
  · right; right; left
    exact ⟨by omega, by omega, by omega, h4, rfl⟩
  · right; right; right
    exact ⟨by omega, by omega, by omega, by omega, rfl⟩

/-- `EnsureVisible` returns its argument when the selection is already inside
the viewport. -/
theorem EnsureVisible_of_visible (l : ListBox)
    (h : 0 ≤ l.currSelection - l.topLine ∧ l.currSelection - l.topLine < l.height) :
    EnsureVisible l = l := by
  unfold EnsureVisible
  simp only []
  split_ifs <;> rfl

theorem EnsureVisible64_eq (l : ListBox) :
    EnsureVisible64 l =
      { l with topLine := newTop64 l.items.length l.currSelection l.topLine l.height } := by
  unfold EnsureVisible64 newTop64
  dsimp only
  split_ifs <;> rfl

theorem wrap64_eq (x : Int) (h1 : -9223372036854775808 ≤ x) (h2 : x < 9223372036854775808) :
    wrap64 x = x := by
  unfold wrap64
  omega

theorem wrap64_isInt64 (x : Int) : IsInt64 (wrap64 x) := by
  unfold wrap64 IsInt64
  omega

theorem newTop64_of_fit (n sel top H : Int) (h : n ≤ H ∨ sel = -1) :
    newTop64 n sel top H = top := by
  unfold newTop64
  rw [if_pos h]

/-- Without wrap-around in `sel - H + 1`, `n - top` and `n - H`, which is the
case for a selection from 0 on in a representable state, the only subtraction
that can wrap is `sel - top`. -/
theorem newTop64_of_scroll (n sel top H : Int) (hn : n < 1152921504606846976)
    (hs : IsInt64 sel) (hH : IsInt64 H) (hlen : H < n) (hpos : 0 < H) (hsel : 0 ≤ sel) :
    newTop64 n sel top H =
      if 0 ≤ wrap64 (sel - top) ∧ wrap64 (sel - top) < H then top
      else if wrap64 (sel - top) < 0 then sel
      else if sel < n - 1 then sel - H + 1
      else n - H := by
  unfold IsInt64 at hs hH
  have hw2 : wrap64 (sel - H) = sel - H := wrap64_eq _ (by omega) (by omega)
  have hw3 : wrap64 (sel - H + 1) = sel - H + 1 := wrap64_eq _ (by omega) (by omega)
  have hw4 : wrap64 (n - (sel - H + 1)) = n - (sel - H + 1) := wrap64_eq _ (by omega) (by omega)
  have hw5 : wrap64 (n - H) = n - H := wrap64_eq _ (by omega) (by omega)
  unfold newTop64
  rw [if_neg (by omega), hw2, hw3, hw4, hw5]
  split_ifs <;> omega

theorem newTop64_idem (n sel top H : Int) (hn : n < 1152921504606846976)
    (hs : IsInt64 sel) (hH : IsInt64 H) (hpos : 0 < H) (hsel : -1 ≤ sel) :
    newTop64 n sel (newTop64 n sel top H) H = newTop64 n sel top H := by
  by_cases hfit : n ≤ H ∨ sel = -1
  · rw [newTop64_of_fit n sel top H hfit, newTop64_of_fit n sel top H hfit]
  · have hlen : H < n := by omega
    have hsel0 : 0 ≤ sel := by omega
    have hHr := hH
    have hsr := hs
    unfold IsInt64 at hHr hsr
    have e1 := newTop64_of_scroll n sel top H hn hs hH hlen hpos hsel0
    have e0 : wrap64 (sel - sel) = 0 := by
      rw [sub_self]
      exact wrap64_eq 0 (by omega) (by omega)
    have e3 : wrap64 (sel - (sel - H + 1)) = H - 1 := by
      rw [show sel - (sel - H + 1) = H - 1 by ring]
      exact wrap64_eq _ (by omega) (by omega)
    have e4 : n - 1 ≤ sel → wrap64 (sel - (n - H)) = sel - (n - H) := fun h =>
      wrap64_eq _ (by omega) (by omega)
    by_cases c1 : 0 ≤ wrap64 (sel - top) ∧ wrap64 (sel - top) < H
    · rw [if_pos c1] at e1
      rw [e1, e1]
    · rw [if_neg c1] at e1
      by_cases c2 : wrap64 (sel - top) < 0
      · rw [if_pos c2] at e1
        rw [e1, newTop64_of_scroll n sel sel H hn hs hH hlen hpos hsel0, e0,
          if_pos ⟨le_refl 0, hpos⟩]
      · rw [if_neg c2] at e1
        by_cases c3 : sel < n - 1
        · rw [if_pos c3] at e1
          rw [e1, newTop64_of_scroll n sel (sel - H + 1) H hn hs hH hlen hpos hsel0, e3,
            if_pos ⟨by omega, by omega⟩]
        · rw [if_neg c3] at e1
          rw [e1, newTop64_of_scroll n sel (n - H) H hn hs hH hlen hpos hsel0,
            e4 (by omega)]
          split_ifs <;> omega

theorem EnsureVisible64_idem (l : ListBox) (hrep : Representable l) (hH : 0 < l.height)
    (hsel : -1 ≤ l.currSelection) :
    EnsureVisible64 (EnsureVisible64 l) = EnsureVisible64 l := by
  obtain ⟨hs, _, hh, hn⟩ := hrep
  rw [EnsureVisible64_eq l, EnsureVisible64_eq]
  dsimp only
  rw [newTop64_idem _ _ _ _ hn hs hh hH hsel]

/-- In a representable state with positive height, a selection from -1 on and
`topLine` from 0 on (every state that the operations of the list box produce),
no operation of `EnsureVisible` wraps around: the 64-bit function and the exact
one agree. -/
theorem EnsureVisible64_eq_EnsureVisible (l : ListBox) (hrep : Representable l)
    (hH : 0 < l.height) (hsel : -1 ≤ l.currSelection) (htop : 0 ≤ l.topLine) :
    EnsureVisible64 l = EnsureVisible l := by
  obtain ⟨hs, ht, hh, hn⟩ := hrep
  have hsr := hs
  have htr := ht
  unfold IsInt64 at hsr htr
  rw [EnsureVisible64_eq]
  by_cases hfit : (l.items.length : Int) ≤ l.height ∨ l.currSelection = -1
  · rw [newTop64_of_fit _ _ _ _ hfit]
    unfold EnsureVisible
    dsimp only
    rw [if_pos hfit]
  · rw [newTop64_of_scroll _ _ l.topLine _ hn hs hh (by omega) hH (by omega),
      wrap64_eq _ (by omega) (by omega)]
    rcases EnsureVisible_cases l with
      ⟨c, e⟩ | ⟨c1, c2, c3, e⟩ | ⟨c1, c2, c3, c4, e⟩ | ⟨c1, c2, c3, c4, e⟩
    · rw [e, if_pos (by omega)]
    · rw [e, if_neg (by omega), if_pos c3]
    · rw [e, if_neg (by omega), if_neg (by omega), if_pos (by omega)]
    · rw [e, if_neg (by omega), if_neg (by omega), if_neg (by omega)]

/-- C10 (idempotence of `EnsureVisible`), as amended, for the 64-bit arithmetic of
the code: in every representable state with positive height and a selection from
-1 on (any items, any `topLine`, also a selection beyond the list), applying
`EnsureVisible` twice gives the same state as applying it once. -/
theorem C10_EnsureVisible64_idempotent (l : ListBox) (hrep : Representable l)
    (hH : 0 < l.height) (hsel : -1 ≤ l.currSelection) :
    EnsureVisible64 (EnsureVisible64 l) = EnsureVisible64 l :=
  EnsureVisible64_idem l hrep hH hsel

/-- The statement of C10 applied to a state in which `EnsureVisible` scrolls:
ten items, height 4, selection 9, `topLine` 0. -/
theorem C10_EnsureVisible64_idempotent_witness :
    Representable (sampleHeight 4 ["0", "1", "2", "3", "4", "5", "6", "7", "8", "9"] 9 0) ∧
    (EnsureVisible64
      (sampleHeight 4 ["0", "1", "2", "3", "4", "5", "6", "7", "8", "9"] 9 0)).topLine = 6 ∧
    EnsureVisible64 (EnsureVisible64
      (sampleHeight 4 ["0", "1", "2", "3", "4", "5", "6", "7", "8", "9"] 9 0)) =
    EnsureVisible64 (sampleHeight 4 ["0", "1", "2", "3", "4", "5", "6", "7", "8", "9"] 9 0) :=
  ⟨by decide, by decide,
    C10_EnsureVisible64_idempotent
      (sampleHeight 4 ["0", "1", "2", "3", "4", "5", "6", "7", "8", "9"] 9 0) (by decide)
      (by decide) (by decide)⟩

/-- C10 as stated, for every height and every selection, fails twice.  At height
0, with one item, selection 0 and `topLine` 5, the first `EnsureVisible` sets
`topLine` to 0 and the second, for which no offset is inside a viewport of
height 0, sets it to 1.  At height 4, with ten items, selection `-2^63 + 8` and
`topLine` 10, the differences `selection - topLine` and `length - top` wrap
around: the first call sets `topLine` to 6 and the second sets it to the
selection. -/
theorem C10_EnsureVisible64_not_idempotent :
    Representable (sampleHeight 0 ["a"] 0 5) ∧
    (EnsureVisible64 (sampleHeight 0 ["a"] 0 5)).topLine = 0 ∧
    (EnsureVisible64 (EnsureVisible64 (sampleHeight 0 ["a"] 0 5))).topLine = 1 ∧
    Representable (sampleHeight 4 ["0", "1", "2", "3", "4", "5", "6", "7", "8", "9"]
      (-9223372036854775800) 10) ∧
    (EnsureVisible64 (sampleHeight 4 ["0", "1", "2", "3", "4", "5", "6", "7", "8", "9"]
      (-9223372036854775800) 10)).topLine = 6 ∧
    (EnsureVisible64 (EnsureVisible64 (sampleHeight 4
      ["0", "1", "2", "3", "4", "5", "6", "7", "8", "9"] (-9223372036854775800) 10))).topLine =
      -9223372036854775800 := by
  decide


/-! ## The invariant without `RemoveItem`

`RemoveItem` is the only call of the item API that can break the state
invariant or leave the next selected item outside the viewport: the other calls
preserve the invariant from every state, `AddItem` also when it evicts. -/

theorem StateInv_NewListBox (AutoSize : Int) (base : ControlBase) (width height : Int) :
    StateInv (NewListBox AutoSize base width height) := by
  have e1 : (NewListBox AutoSize base width height).items = [] := rfl
  have e2 : (NewListBox AutoSize base width height).currSelection = -1 := rfl
  have e3 : (NewListBox AutoSize base width height).topLine = 0 := rfl
  unfold StateInv
  rw [e1, e2, e3]
  simp only [List.length_nil]
  refine ⟨by omega, by omega, by omega, ?_⟩
  split_ifs
  omega

theorem AddItem_length (l : ListBox) (item : String) :
    (AddItem l item).1.items.length = l.items.length + 1 ∨
    (0 < l.items.length ∧ (AddItem l item).1.items.length = l.items.length) := by
  unfold AddItem
  simp only []
  split_ifs with h
  · right
    have hpos : 0 < l.items.length := by omega
    refine ⟨hpos, ?_⟩
    have e : RemoveItem l 0 =
        ({ l with items := l.items.take (0 : Int).toNat ++ l.items.drop ((0 : Int).toNat + 1) },
          true) :=
      if_neg (by omega)
    rw [e]
    simp
    omega
  · left
    simp

theorem AddItem_frame (l : ListBox) (item : String) :
    (AddItem l item).1.currSelection = l.currSelection ∧
    (AddItem l item).1.topLine = l.topLine ∧ (AddItem l item).1.height = l.height := by
  unfold AddItem RemoveItem
  simp only []
  split_ifs <;> exact ⟨rfl, rfl, rfl⟩

theorem StateInv_AddItem (l : ListBox) (item : String) (h : StateInv l) :
    StateInv (AddItem l item).1 := by
  obtain ⟨e1, e2, e3⟩ := AddItem_frame l item
  unfold StateInv at h ⊢
  rw [e1, e2, e3]
  rcases AddItem_length l item with e | ⟨_, e⟩ <;> rw [e] <;> split_ifs at h ⊢ <;> omega

theorem StateInv_Clear (l : ListBox) : StateInv (Clear l) := by
  have e1 : (Clear l).items = [] := rfl
  have e2 : (Clear l).currSelection = -1 := rfl
  have e3 : (Clear l).topLine = 0 := rfl
  have e4 : (Clear l).height = l.height := rfl
  unfold StateInv
  rw [e1, e2, e3, e4]
  simp only [List.length_nil]
  refine ⟨by omega, by omega, by omega, ?_⟩
  split_ifs
  omega

theorem StateInv_EnsureVisible (l : ListBox) (h : StateInv l) : StateInv (EnsureVisible l) := by
  unfold StateInv at h ⊢
  rcases EnsureVisible_cases l with ⟨_, e⟩ | ⟨_, _, _, e⟩ | ⟨_, _, _, _, e⟩ | ⟨_, _, _, _, e⟩
  · rw [e]; exact h
  all_goals
    rw [e]
    simp only []
    split_ifs at h ⊢ <;> omega

theorem StateInv_SelectItem (l : ListBox) (id : Int) (h : StateInv l) :
    StateInv (SelectItem l id).1 := by
  unfold SelectItem
  split_ifs with hid
  · exact h
  · apply StateInv_EnsureVisible
    unfold StateInv at h ⊢
    simp only []
    split_ifs at h ⊢ <;> omega

theorem StateInv_apply (l : ListBox) (c : ItemCall) (hc : c.isRemove = false)
    (h : StateInv l) : StateInv (c.apply l) := by
  cases c with
  | addItem item => exact StateInv_AddItem l item h
  | removeItem id => simp [ItemCall.isRemove] at hc
  | clear => exact StateInv_Clear l
  | selectItem id => exact StateInv_SelectItem l id h

/-- Without `RemoveItem` the invariant holds after every sequence of calls on a
new list box (so after every call of such a sequence). -/
theorem StateInv_runCalls (AutoSize : Int) (base : ControlBase) (width height : Int)
    (calls : List ItemCall) (hc : ∀ c ∈ calls, c.isRemove = false) :
    StateInv (runCalls (NewListBox AutoSize base width height) calls) := by
  have key : ∀ (cs : List ItemCall) (l : ListBox), (∀ c ∈ cs, c.isRemove = false) →
      StateInv l → StateInv (runCalls l cs) := by
    intro cs
    induction cs with
    | nil => intro l _ h; exact h
    | cons c cs ih =>
      intro l hcs h
      exact ih (c.apply l) (fun d hd => hcs d (List.mem_cons_of_mem _ hd))
        (StateInv_apply l c (hcs c (List.mem_cons_self _ _)) h)
  exact key calls _ hc (StateInv_NewListBox AutoSize base width height)

/-- From a state that satisfies the invariant, with a viewport of positive
height, a successful `SelectItem` leaves the selected item inside the
viewport. -/
theorem SelectItem_visible (l : ListBox) (id : Int) (h : StateInv l) (hH : 0 < l.height)
    (hr : (SelectItem l id).2 = true) : Visible (SelectItem l id).1 := by
  by_cases hid : (l.items.length : Int) ≤ id ∨ id < 0
  · have e : SelectItem l id = (l, false) := if_pos hid
    rw [e] at hr
    simp at hr
  · have e : SelectItem l id = (EnsureVisible { l with currSelection := id }, true) := if_neg hid
    rw [e]
    unfold StateInv at h
    unfold Visible
    rcases EnsureVisible_cases { l with currSelection := id } with
      ⟨c, e⟩ | ⟨_, _, c, e⟩ | ⟨_, _, _, c, e⟩ | ⟨_, _, _, c, e⟩
    all_goals
      rw [e]
      simp only [] at c ⊢
      split_ifs at h <;> omega

/-! ## Scrollbar round trip (C11) -/

theorem truncToInt_of_nonneg {q : ℚ} (h : 0 ≤ q) : truncToInt q = ⌊q⌋ := if_pos h

theorem RoundsLike32_id : RoundsLike32 id := by
  refine ⟨fun n _ _ => rfl, fun x h1 h2 => ?_⟩
  have hx : 0 ≤ x / 16777216 := by positivity
  simp only [id]
  constructor <;> linarith

/-! ### Binary32 rounding has the properties of `RoundsLike32` -/

theorem pow2_eq (z : Int) : pow2 z = (2 : ℚ) ^ z := by
  unfold pow2
  split_ifs with h
  · have e : z = (z.toNat : Int) := (Int.toNat_of_nonneg h).symm
    rw [Nat.cast_pow, Nat.cast_ofNat]
    conv_rhs => rw [e]
    rw [zpow_natCast]
  · have hn : 0 ≤ -z := by omega
    have e : z = -((-z).toNat : Int) := by
      rw [Int.toNat_of_nonneg hn]
      ring
    rw [Nat.cast_pow, Nat.cast_ofNat]
    conv_rhs => rw [e]
    rw [zpow_neg, zpow_natCast, one_div]

theorem bitPos_spec (fuel : Nat) : ∀ n : Nat, 1 ≤ n → n ≤ fuel →
    2 ^ bitPos fuel n ≤ n ∧ n < 2 ^ (bitPos fuel n + 1) := by
  induction fuel with
  | zero => intro n h1 h2; omega
  | succ f ih =>
    intro n h1 h2
    unfold bitPos
    split_ifs with h
    · have : n = 1 := by omega
      subst this
      simp
    · obtain ⟨a, b⟩ := ih (n / 2) (by omega) (by omega)
      rw [pow_succ] at b ⊢
      constructor
      · omega
      · rw [pow_succ]
        omega

theorem binExp_spec (a : ℚ) (ha : 0 < a) :
    (2 : ℚ) ^ binExp a ≤ a ∧ a < (2 : ℚ) ^ (binExp a + 1) := by
  unfold binExp
  simp only [pow2_eq]
  have hnum : 0 < a.num := Rat.num_pos.2 ha
  have hden : 0 < a.den := a.den_pos
  obtain ⟨n1, n2⟩ := bitPos_spec a.num.toNat a.num.toNat (by omega) (le_refl _)
  obtain ⟨d1, d2⟩ := bitPos_spec a.den a.den (by omega) (le_refl _)
  have hnq : ((a.num.toNat : Nat) : ℚ) = (a.num : ℚ) := by
    have : ((a.num.toNat : Nat) : Int) = a.num := Int.toNat_of_nonneg (le_of_lt hnum)
    exact_mod_cast this
  have ea : a = (a.num : ℚ) / (a.den : ℚ) := (Rat.num_div_den a).symm
  -- the bounds as rationals
  have N1 : (2 : ℚ) ^ (bitPos a.num.toNat a.num.toNat : Int) ≤ a.num := by
    rw [zpow_natCast, ← hnq]
    exact_mod_cast n1
  have N2 : (a.num : ℚ) < (2 : ℚ) ^ ((bitPos a.num.toNat a.num.toNat : Int) + 1) := by
    rw [← hnq]
    have : ((a.num.toNat : Nat) : ℚ) < (2 : ℚ) ^ (bitPos a.num.toNat a.num.toNat + 1) := by
      exact_mod_cast n2
    rwa [← zpow_natCast, Nat.cast_add, Nat.cast_one] at this
  have D1 : (2 : ℚ) ^ (bitPos a.den a.den : Int) ≤ a.den := by
    rw [zpow_natCast]
    exact_mod_cast d1
  have D2 : (a.den : ℚ) < (2 : ℚ) ^ ((bitPos a.den a.den : Int) + 1) := by
    have : ((a.den : Nat) : ℚ) < (2 : ℚ) ^ (bitPos a.den a.den + 1) := by
      exact_mod_cast d2
    rwa [← zpow_natCast, Nat.cast_add, Nat.cast_one] at this
  generalize (bitPos a.num.toNat a.num.toNat : Int) = i at *
  generalize (bitPos a.den a.den : Int) = j at *
  have hdq : (0 : ℚ) < a.den := by exact_mod_cast hden
  have h2 : (0 : ℚ) < 2 := by norm_num
  have pj : (0 : ℚ) < (2 : ℚ) ^ j := zpow_pos h2 j
  have two_ne : (2 : ℚ) ≠ 0 := by norm_num
  -- 2^(i-j-1) < a < 2^(i-j+1)
  have L : (2 : ℚ) ^ (i - j - 1) < a := by
    have e1 : (2 : ℚ) ^ (i - j - 1) = (2 : ℚ) ^ i / (2 : ℚ) ^ (j + 1) := by
      rw [← zpow_sub₀ two_ne]
      congr 1
      ring
    rw [e1, ea, div_lt_div_iff₀ (zpow_pos h2 _) hdq]
    have pi : (0 : ℚ) < (2 : ℚ) ^ i := zpow_pos h2 i
    nlinarith
  have U : a < (2 : ℚ) ^ (i - j + 1) := by
    have e1 : (2 : ℚ) ^ (i - j + 1) = (2 : ℚ) ^ (i + 1) / (2 : ℚ) ^ j := by
      rw [← zpow_sub₀ two_ne]
      congr 1
      ring
    rw [e1, ea, div_lt_div_iff₀ hdq pj]
    have hn0 : (0 : ℚ) < a.num := by exact_mod_cast hnum
    nlinarith
  split_ifs with h
  · exact ⟨h, U⟩
  · refine ⟨le_of_lt L, ?_⟩
    have : i - j - 1 + 1 = i - j := by ring
    rw [this]
    exact lt_of_not_le h

theorem roundHalfEven_spec (q : ℚ) :
    q - 1 / 2 ≤ (roundHalfEven q : ℚ) ∧ (roundHalfEven q : ℚ) ≤ q + 1 / 2 := by
  have h1 : ((⌊q⌋ : Int) : ℚ) ≤ q := Int.floor_le q
  have h2 : q < (⌊q⌋ : Int) + 1 := Int.lt_floor_add_one q
  unfold roundHalfEven
  split_ifs with a b c
  · constructor <;> linarith
  · push_cast
    constructor <;> linarith
  · constructor <;> linarith
  · push_cast
    constructor <;> linarith

theorem roundHalfEven_intCast (k : Int) : roundHalfEven (k : ℚ) = k := by
  unfold roundHalfEven
  rw [Int.floor_intCast, sub_self, if_pos (by norm_num)]

/-- Binary32 rounding of a positive value has a relative error of at most
`2^-24`. -/
theorem rnd32_relative (x : ℚ) (hx : 0 < x) :
    x - x / 16777216 ≤ rnd32 x ∧ rnd32 x ≤ x + x / 16777216 := by
  obtain ⟨e1, e2⟩ := binExp_spec x hx
  obtain ⟨r1, r2⟩ := roundHalfEven_spec (x * pow2 (23 - binExp x))
  unfold rnd32
  rw [if_neg (ne_of_gt hx), if_neg (not_lt.2 (le_of_lt hx))]
  rw [pow2_eq] at r1 r2 ⊢
  rw [pow2_eq]
  generalize binExp x = e at *
  generalize (roundHalfEven (x * (2 : ℚ) ^ (23 - e)) : ℚ) = k at *
  have two_ne : (2 : ℚ) ≠ 0 := by norm_num
  have h2 : (0 : ℚ) < 2 := by norm_num
  have p1 : (0 : ℚ) < (2 : ℚ) ^ (e - 23) := zpow_pos h2 _
  have hinv : (2 : ℚ) ^ (23 - e) * (2 : ℚ) ^ (e - 23) = 1 := by
    rw [← zpow_add₀ two_ne]
    have : 23 - e + (e - 23) = 0 := by ring
    rw [this, zpow_zero]
  have hhalf : (2 : ℚ) ^ (e - 23) = (2 : ℚ) ^ e / 8388608 := by
    rw [zpow_sub₀ two_ne]
    norm_num
  have hx1 : x * (2 : ℚ) ^ (23 - e) * (2 : ℚ) ^ (e - 23) = x := by
    rw [mul_assoc, hinv, mul_one]
  have m1 := mul_le_mul_of_nonneg_right r1 (le_of_lt p1)
  have m2 := mul_le_mul_of_nonneg_right r2 (le_of_lt p1)
  have em1 : (x * (2 : ℚ) ^ (23 - e) - 1 / 2) * (2 : ℚ) ^ (e - 23)
      = x - (2 : ℚ) ^ e / 16777216 := by
    rw [sub_mul, hx1, hhalf]
    ring
  have em2 : (x * (2 : ℚ) ^ (23 - e) + 1 / 2) * (2 : ℚ) ^ (e - 23)
      = x + (2 : ℚ) ^ e / 16777216 := by
    rw [add_mul, hx1, hhalf]
    ring
  rw [em1] at m1
  rw [em2] at m2
  constructor <;> linarith

/-- The scaled significand of a positive integer up to `2^24` is an integer, so
rounding leaves it as it is. -/
theorem rnd32_scaled_int (p : Int) (h1 : 1 ≤ p) (h2 : p ≤ 16777216) :
    ((roundHalfEven ((p : ℚ) * pow2 (23 - binExp (p : ℚ))) : Int) : ℚ) *
      pow2 (binExp (p : ℚ) - 23) = p := by
  have hpq : (0 : ℚ) < (p : ℚ) := by exact_mod_cast (by omega : 0 < p)
  obtain ⟨e1, e2⟩ := binExp_spec (p : ℚ) hpq
  rw [pow2_eq, pow2_eq]
  generalize binExp (p : ℚ) = e at *
  have two_ne : (2 : ℚ) ≠ 0 := by norm_num
  have one_lt : (1 : ℚ) < 2 := by norm_num
  have hinv : (2 : ℚ) ^ (23 - e) * (2 : ℚ) ^ (e - 23) = 1 := by
    rw [← zpow_add₀ two_ne]
    have : 23 - e + (e - 23) = 0 := by ring
    rw [this, zpow_zero]
  -- 0 <= e <= 24
  have he0 : 0 ≤ e := by
    by_contra hneg
    have hle : e + 1 ≤ 0 := by omega
    have : (2 : ℚ) ^ (e + 1) ≤ (2 : ℚ) ^ (0 : Int) := zpow_le_zpow_right₀ (le_of_lt one_lt) hle
    rw [zpow_zero] at this
    have hp1 : (1 : ℚ) ≤ p := by exact_mod_cast h1
    linarith
  have he24 : e ≤ 24 := by
    by_contra hbig
    have hle : (25 : Int) ≤ e := by omega
    have : (2 : ℚ) ^ (25 : Int) ≤ (2 : ℚ) ^ e := zpow_le_zpow_right₀ (le_of_lt one_lt) hle
    have hp2 : (p : ℚ) ≤ 16777216 := by exact_mod_cast h2
    norm_num at this
    linarith
  -- the scaled value is an integer
  have hK : ∃ K : Int, (p : ℚ) * (2 : ℚ) ^ (23 - e) = (K : ℚ) := by
    by_cases h23 : e ≤ 23
    · refine ⟨p * 2 ^ (23 - e).toNat, ?_⟩
      have hj : 23 - e = ((23 - e).toNat : Int) := (Int.toNat_of_nonneg (by omega)).symm
      push_cast
      conv_lhs => rw [hj]
      rw [zpow_natCast]
    · have he : e = 24 := by omega
      subst he
      have hp2 : (16777216 : ℚ) ≤ p := by
        have : (2 : ℚ) ^ (24 : Int) = 16777216 := by norm_num
        linarith
      have hp3 : (16777216 : Int) ≤ p := by exact_mod_cast hp2
      have hp : p = 16777216 := by omega
      subst hp
      exact ⟨8388608, by norm_num⟩
  obtain ⟨K, hK⟩ := hK
  rw [hK, roundHalfEven_intCast, ← hK, mul_assoc, hinv, mul_one]

theorem rnd32_intCast (n : Int) (h1 : -16777216 ≤ n) (h2 : n ≤ 16777216) :
    rnd32 (n : ℚ) = n := by
  unfold rnd32
  by_cases h0 : n = 0
  · subst h0
    simp
  · have hne : (n : ℚ) ≠ 0 := by exact_mod_cast h0
    rw [if_neg hne]
    by_cases hneg : n < 0
    · have hq : (n : ℚ) < 0 := by exact_mod_cast hneg
      rw [if_pos hq]
      have e : -(n : ℚ) = ((-n : Int) : ℚ) := by push_cast; ring
      rw [e, neg_mul, rnd32_scaled_int (-n) (by omega) (by omega)]
      push_cast
      ring
    · have hq : ¬ (n : ℚ) < 0 := by
        have : (0 : ℚ) ≤ n := by exact_mod_cast (by omega : 0 ≤ n)
        exact not_lt.2 this
      rw [if_neg hq]
      exact rnd32_scaled_int n (by omega) h2

/-- Binary32 rounding has the two properties of `RoundsLike32`. -/
theorem RoundsLike32_rnd32 : RoundsLike32 rnd32 :=
  ⟨rnd32_intCast, fun x h1 _ => rnd32_relative x (by linarith)⟩

/-! ### The round trip under such a rounding -/

/-- The thumb offset `y` of `redrawScroll` under a rounding like that of
`float32`: with `m = N-1` item steps, `d = H-3` thumb steps and selection `s`,
`m * y = s * d - R` with a remainder `0 <= R <= m`, where `R = m` occurs only
strictly inside the item range and `R = 0` at both ends of it. -/
theorem thumb_core (rnd : ℚ → ℚ) (hr : RoundsLike32 rnd) (s m d : Int) (hm1 : 1 ≤ m)
    (hm2 : m ≤ 8191) (hd1 : 1 ≤ d) (hd2 : d ≤ 509) (hs0 : 0 ≤ s) (hsm : s ≤ m) :
    ∃ y R : Int, truncToInt (rnd (rnd (rnd (s : ℚ) / rnd (m : ℚ)) * rnd (d : ℚ))) = y ∧
      0 ≤ y ∧ 0 ≤ R ∧ R ≤ m ∧ m * y = s * d - R ∧ (R = m → 0 < s ∧ s < m) ∧
      (s = 0 ∨ s = m → R = 0) := by
  obtain ⟨hI, hE⟩ := hr
  rw [hI s (by omega) (by omega), hI m (by omega) (by omega), hI d (by omega) (by omega)]
  have hmq : (1 : ℚ) ≤ m := by exact_mod_cast hm1
  have hmq2 : (m : ℚ) ≤ 8191 := by exact_mod_cast hm2
  have hdq : (1 : ℚ) ≤ d := by exact_mod_cast hd1
  have hdq2 : (d : ℚ) ≤ 509 := by exact_mod_cast hd2
  by_cases h0 : s = 0
  · subst h0
    refine ⟨0, 0, ?_, le_refl 0, le_refl 0, by omega, by ring, fun h => by omega, fun _ => rfl⟩
    have e0 : rnd (0 : ℚ) = 0 := by simpa using hI 0 (by omega) (by omega)
    simp [e0, truncToInt]
  by_cases h1 : s = m
  · subst h1
    refine ⟨d, 0, ?_, by omega, le_refl 0, by omega, by ring, fun h => by omega, fun _ => rfl⟩
    have e1 : rnd (1 : ℚ) = 1 := by simpa using hI 1 (by omega) (by omega)
    have hsne : (s : ℚ) ≠ 0 := by
      have : (0 : ℚ) < s := by linarith
      exact ne_of_gt this
    rw [div_self hsne, e1, one_mul, hI d (by omega) (by omega)]
    rw [truncToInt_of_nonneg (by linarith), Int.floor_intCast]
  have hs1 : 1 ≤ s := by omega
  have hslt : s < m := by omega
  have hsq : (1 : ℚ) ≤ s := by exact_mod_cast hs1
  have hsq2 : (s : ℚ) ≤ m := by exact_mod_cast hsm
  have hm0 : (0 : ℚ) < m := by linarith
  -- first rounding: the quotient
  have hx1lo : (1 : ℚ) / 16384 ≤ (s : ℚ) / m := by
    rw [le_div_iff₀ hm0]
    linarith
  have hx1hi : (s : ℚ) / m ≤ 1 := (div_le_one hm0).2 hsq2
  obtain ⟨a1, a2⟩ := hE _ hx1lo (by linarith)
  have hq1lo : (1 : ℚ) / 16384 ≤ rnd ((s : ℚ) / m) := by
    have : (1 : ℚ) / 8191 ≤ (s : ℚ) / m := by
      rw [le_div_iff₀ hm0]
      linarith
    linarith
  have hq1hi : rnd ((s : ℚ) / m) ≤ 2 := by linarith
  -- m * q1 is within s * (1 ± ε)
  have hA1 : (s : ℚ) - s / 16777216 ≤ m * rnd ((s : ℚ) / m) := by
    have := mul_le_mul_of_nonneg_left a1 (le_of_lt hm0)
    have e : (m : ℚ) * ((s : ℚ) / m - (s : ℚ) / m / 16777216) = s - s / 16777216 := by
      field_simp
      ring
    linarith
  have hA2 : m * rnd ((s : ℚ) / m) ≤ (s : ℚ) + s / 16777216 := by
    have := mul_le_mul_of_nonneg_left a2 (le_of_lt hm0)
    have e : (m : ℚ) * ((s : ℚ) / m + (s : ℚ) / m / 16777216) = s + s / 16777216 := by
      field_simp
      ring
    linarith
  generalize rnd ((s : ℚ) / m) = q1 at *
  -- second rounding: the product
  have hd0 : (0 : ℚ) ≤ d := by linarith
  have hplo : (1 : ℚ) / 16384 ≤ q1 * d := by
    have : q1 * 1 ≤ q1 * d := mul_le_mul_of_nonneg_left hdq (by linarith)
    linarith
  have hphi : q1 * d ≤ 16384 := by
    have : q1 * d ≤ 2 * 509 := mul_le_mul hq1hi hdq2 hd0 (by norm_num)
    linarith
  obtain ⟨b1, b2⟩ := hE _ hplo hphi
  -- m * p is within s * d * (1 ± ε)
  have hB1 : (s : ℚ) * d - (s : ℚ) * d / 16777216 ≤ m * (q1 * d) := by
    have := mul_le_mul_of_nonneg_right hA1 hd0
    have e : ((s : ℚ) - s / 16777216) * d = (s : ℚ) * d - (s : ℚ) * d / 16777216 := by ring
    have e2 : (m : ℚ) * q1 * d = m * (q1 * d) := by ring
    linarith
  have hB2 : m * (q1 * d) ≤ (s : ℚ) * d + (s : ℚ) * d / 16777216 := by
    have := mul_le_mul_of_nonneg_right hA2 hd0
    have e : ((s : ℚ) + s / 16777216) * d = (s : ℚ) * d + (s : ℚ) * d / 16777216 := by ring
    have e2 : (m : ℚ) * q1 * d = m * (q1 * d) := by ring
    linarith
  -- m * q2 is within m * p * (1 ± ε)
  have hC1 : m * (q1 * d) - m * (q1 * d) / 16777216 ≤ m * rnd (q1 * d) := by
    have := mul_le_mul_of_nonneg_left b1 (le_of_lt hm0)
    have e : (m : ℚ) * (q1 * d - q1 * d / 16777216)
        = m * (q1 * d) - m * (q1 * d) / 16777216 := by ring
    linarith
  have hC2 : m * rnd (q1 * d) ≤ m * (q1 * d) + m * (q1 * d) / 16777216 := by
    have := mul_le_mul_of_nonneg_left b2 (le_of_lt hm0)
    have e : (m : ℚ) * (q1 * d + q1 * d / 16777216)
        = m * (q1 * d) + m * (q1 * d) / 16777216 := by ring
    linarith
  have hq2nn : 0 ≤ rnd (q1 * d) := by linarith
  have hS : (s : ℚ) * d ≤ 4169219 := by
    have : (s : ℚ) * d ≤ 8191 * 509 := mul_le_mul (by linarith) hdq2 hd0 (by norm_num)
    linarith
  have hS0 : (0 : ℚ) ≤ (s : ℚ) * d := by positivity
  generalize (m : ℚ) * (q1 * d) = B at *
  generalize rnd (q1 * d) = q2 at *
  have hlow : (s : ℚ) * d - 1 / 2 < m * q2 := by linarith
  have hupp : m * q2 < (s : ℚ) * d + 1 / 2 := by linarith
  rw [truncToInt_of_nonneg hq2nn]
  have hfl : ((⌊q2⌋ : Int) : ℚ) ≤ q2 := Int.floor_le _
  have hfl2 : q2 < (⌊q2⌋ : Int) + 1 := Int.lt_floor_add_one _
  have hy0 : 0 ≤ ⌊q2⌋ := Int.floor_nonneg.2 hq2nn
  have hf1 : (m : ℚ) * (⌊q2⌋ : Int) ≤ m * q2 := mul_le_mul_of_nonneg_left hfl (le_of_lt hm0)
  have hf2 : (m : ℚ) * q2 < m * ((⌊q2⌋ : Int) + 1) := mul_lt_mul_of_pos_left hfl2 hm0
  have h5 : ((m * ⌊q2⌋ : Int) : ℚ) < ((s * d + 1 : Int) : ℚ) := by
    push_cast
    linarith
  have h6 : ((s * d - m - 1 : Int) : ℚ) < ((m * ⌊q2⌋ : Int) : ℚ) := by
    push_cast
    linarith
  have h5i : m * ⌊q2⌋ < s * d + 1 := by exact_mod_cast h5
  have h6i : s * d - m - 1 < m * ⌊q2⌋ := by exact_mod_cast h6
  refine ⟨_, s * d - m * ⌊q2⌋, rfl, hy0, by omega, by omega, by ring,
    fun _ => ⟨by omega, hslt⟩, fun h => by omega⟩

/-- The rounding error of the last addition is below the margin `1 / (10 d)`
that an inequality between integers leaves, for `d <= 509` and `T <= 2 d + 9/10`. -/
theorem margin_bound (d T : ℚ) (hd1 : 1 ≤ d) (hd2 : d ≤ 509)
    (hT : T ≤ 2 * d + 9 / 10) : 3 * T / 16777216 ≤ 1 / (10 * d) := by
  have hd0 : (0 : ℚ) < 10 * d := by linarith
  rw [le_div_iff₀ hd0]
  have h1 : T * d ≤ (2 * d + 9 / 10) * d := mul_le_mul_of_nonneg_right hT (by linarith)
  have h2 : d * d ≤ 509 * d := mul_le_mul_of_nonneg_right hd2 (by linarith)
  nlinarith

/-- The selection `z` that `recalcPositionByScroll` computes from a thumb offset
`y` with `m * y = s * d - R`, under a rounding like that of `float32`. -/
theorem inverse_core (rnd : ℚ → ℚ) (hr : RoundsLike32 rnd) (s m d y R : Int) (hm1 : 1 ≤ m)
    (hm2 : m ≤ 8191) (hd1 : 1 ≤ d) (hd2 : d ≤ 509) (hs0 : 0 ≤ s) (hsm : s ≤ m)
    (hy0 : 0 ≤ y) (hR0 : 0 ≤ R) (hmy : m * y = s * d - R) :
    0 ≤ rnd (rnd (rnd (rnd (m : ℚ) * rnd (y : ℚ)) / rnd (d : ℚ)) + rnd (9 / 10)) ∧
    0 ≤ ⌊rnd (rnd (rnd (rnd (m : ℚ) * rnd (y : ℚ)) / rnd (d : ℚ)) + rnd (9 / 10))⌋ ∧
    ⌊rnd (rnd (rnd (rnd (m : ℚ) * rnd (y : ℚ)) / rnd (d : ℚ)) + rnd (9 / 10))⌋ ≤ s ∧
    (s ≤ 2 * d → 10 * R < 19 * d →
      s - 1 ≤ ⌊rnd (rnd (rnd (rnd (m : ℚ) * rnd (y : ℚ)) / rnd (d : ℚ)) + rnd (9 / 10))⌋) ∧
    (s ≤ 2 * d → 10 * R < 9 * d →
      ⌊rnd (rnd (rnd (rnd (m : ℚ) * rnd (y : ℚ)) / rnd (d : ℚ)) + rnd (9 / 10))⌋ = s) ∧
    (R = 0 →
      ⌊rnd (rnd (rnd (rnd (m : ℚ) * rnd (y : ℚ)) / rnd (d : ℚ)) + rnd (9 / 10))⌋ = s) := by
  obtain ⟨hI, hE⟩ := hr
  have hmq : (1 : ℚ) ≤ m := by exact_mod_cast hm1
  have hdq : (1 : ℚ) ≤ d := by exact_mod_cast hd1
  have hdq2 : (d : ℚ) ≤ 509 := by exact_mod_cast hd2
  have hsq0 : (0 : ℚ) ≤ s := by exact_mod_cast hs0
  have hsq2 : (s : ℚ) ≤ 8191 := by
    have : s ≤ 8191 := by omega
    exact_mod_cast this
  have hRq0 : (0 : ℚ) ≤ R := by exact_mod_cast hR0
  have hd0 : (0 : ℚ) < d := by linarith
  -- the integers are exact
  have hsd : s * d ≤ 8191 * 509 := by
    have h1 : s * d ≤ 8191 * d := Int.mul_le_mul_of_nonneg_right (by omega) (by omega)
    omega
  have hmy0 : 0 ≤ m * y := Int.mul_nonneg (by omega) hy0
  have hyle : y ≤ m * y := by
    have := Int.mul_le_mul_of_nonneg_right hm1 hy0
    omega
  rw [hI m (by omega) (by omega), hI y (by omega) (by omega), hI d (by omega) (by omega)]
  have hprod : (m : ℚ) * (y : ℚ) = ((m * y : Int) : ℚ) := by push_cast; ring
  rw [hprod, hI (m * y) (by omega) (by omega)]
  -- t = m * y / d = s - R / d
  have ht : ((m * y : Int) : ℚ) / d = s - R / d := by
    rw [hmy]
    push_cast
    field_simp
  rw [ht]
  have htle : (s : ℚ) - R / d ≤ s := by
    have : (0 : ℚ) ≤ R / d := by positivity
    linarith
  have ht0 : (0 : ℚ) ≤ (s : ℚ) - R / d := by
    rw [← ht]
    have : (0 : ℚ) ≤ ((m * y : Int) : ℚ) := by exact_mod_cast hmy0
    positivity
  -- third rounding: the quotient
  have hq3 : (s : ℚ) - R / d - ((s : ℚ) - R / d) / 16777216 ≤ rnd ((s : ℚ) - R / d) ∧
      rnd ((s : ℚ) - R / d) ≤ (s : ℚ) - R / d + ((s : ℚ) - R / d) / 16777216 := by
    by_cases hz : m * y = 0
    · have e : (s : ℚ) - R / d = ((0 : Int) : ℚ) := by
        rw [← ht, hz]
        simp
      rw [e, hI 0 (by omega) (by omega)]
      norm_num
    · have h1 : 1 ≤ m * y := by omega
      have h1q : (1 : ℚ) ≤ ((m * y : Int) : ℚ) := by exact_mod_cast h1
      have hlo : (1 : ℚ) / 16384 ≤ (s : ℚ) - R / d := by
        rw [← ht, le_div_iff₀ hd0]
        linarith
      exact hE _ hlo (by linarith)
  obtain ⟨c1, c2⟩ := hq3
  -- what the remainder says about t
  have hb : 10 * R < 19 * d → (s : ℚ) - 19 / 10 + 1 / (10 * d) ≤ (s : ℚ) - R / d := by
    intro h
    have hq : (10 : ℚ) * R + 1 ≤ 19 * d := by exact_mod_cast (by omega : 10 * R + 1 ≤ 19 * d)
    have e : (R : ℚ) / d ≤ 19 / 10 - 1 / (10 * d) := by
      rw [div_le_iff₀ hd0]
      have : (19 / 10 - 1 / (10 * (d : ℚ))) * d = 19 / 10 * d - 1 / 10 := by
        field_simp
        ring
      linarith
    linarith
  have hc : 10 * R < 9 * d → (s : ℚ) - 9 / 10 + 1 / (10 * d) ≤ (s : ℚ) - R / d := by
    intro h
    have hq : (10 : ℚ) * R + 1 ≤ 9 * d := by exact_mod_cast (by omega : 10 * R + 1 ≤ 9 * d)
    have e : (R : ℚ) / d ≤ 9 / 10 - 1 / (10 * d) := by
      rw [div_le_iff₀ hd0]
      have : (9 / 10 - 1 / (10 * (d : ℚ))) * d = 9 / 10 * d - 1 / 10 := by
        field_simp
        ring
      linarith
    linarith
  have hz : R = 0 → (s : ℚ) - R / d = s := by
    intro h
    rw [h]
    simp
  have hmarg : s ≤ 2 * d →
      3 * ((s : ℚ) - R / d + 9 / 10) / 16777216 ≤ 1 / (10 * d) := by
    intro h
    have hq : (s : ℚ) ≤ 2 * d := by exact_mod_cast h
    exact margin_bound d _ hdq hdq2 (by linarith)
  obtain ⟨e1, e2⟩ := hE (9 / 10) (by norm_num) (by norm_num)
  generalize (s : ℚ) - R / d = t at *
  generalize rnd t = q3 at *
  generalize rnd (9 / 10) = c at *
  -- fourth rounding: the sum
  obtain ⟨f1, f2⟩ := hE (q3 + c) (by linarith) (by linarith)
  generalize rnd (q3 + c) = q4 at *
  have hq4nn : 0 ≤ q4 := by linarith
  have hq4hi : q4 < (s : ℚ) + 1 := by linarith
  have hq4lo : t + 9 / 10 - 3 * (t + 9 / 10) / 16777216 ≤ q4 := by linarith
  refine ⟨hq4nn, Int.floor_nonneg.2 hq4nn, ?_, ?_, ?_, ?_⟩
  · have : ⌊q4⌋ < s + 1 := by
      rw [Int.floor_lt]
      push_cast
      exact hq4hi
    omega
  · intro h1 h2
    have := hb h2
    have := hmarg h1
    rw [Int.le_floor]
    push_cast
    linarith
  · intro h1 h2
    have := hc h2
    have := hmarg h1
    have hge : s ≤ ⌊q4⌋ := by
      rw [Int.le_floor]
      linarith
    have hle : ⌊q4⌋ < s + 1 := by
      rw [Int.floor_lt]
      push_cast
      exact hq4hi
    omega
  · intro h0
    have := hz h0
    have hge : s ≤ ⌊q4⌋ := by
      rw [Int.le_floor]
      linarith
    have hle : ⌊q4⌋ < s + 1 := by
      rw [Int.floor_lt]
      push_cast
      exact hq4hi
    omega

/-- The thumb row that `redrawScroll` caches, for any float model. -/
theorem redrawScroll_buttonPos (fm : FloatModel) (l : ListBox) (hsel : l.currSelection ≠ -1)
    (hN : (1 : Int) < l.items.length) :
    (redrawScroll fm l).1.buttonPos =
      truncToInt (fm.rnd (fm.rnd (fm.rnd (l.currSelection : ℚ) /
        fm.rnd (((l.items.length : Int) - 1 : Int) : ℚ)) * fm.rnd ((l.height - 3 : Int) : ℚ))) + 1 ∧
    (redrawScroll fm l).1.items = l.items ∧
    (redrawScroll fm l).1.height = l.height := by
  unfold redrawScroll
  rw [if_pos hsel, if_pos (show (l.items.length : Int) > 1 from hN)]
  dsimp only
  split_ifs <;> exact ⟨rfl, rfl, rfl⟩

/-- The selection that `recalcPositionByScroll` sets when the divisor is not
zero and the converted position is inside the item range. -/
theorem recalcPositionByScroll_sel (fm : FloatModel) (l : ListBox)
    (hN : (2 : Int) ≤ l.items.length) (hden : fm.rnd ((l.height - 3 : Int) : ℚ) ≠ 0) (z : Int)
    (hz : truncToInt (fm.rnd (fm.rnd (fm.rnd (fm.rnd (((l.items.length : Int) - 1 : Int) : ℚ) *
      fm.rnd ((l.buttonPos - 1 : Int) : ℚ)) / fm.rnd ((l.height - 3 : Int) : ℚ)) +
      fm.rnd (9 / 10))) = z) (hz0 : 0 ≤ z) (hz1 : z < l.items.length) :
    (recalcPositionByScroll fm l).currSelection = z := by
  unfold recalcPositionByScroll
  rw [if_neg (by omega)]
  dsimp only
  rw [EnsureVisible_currSelection]
  simp only [if_neg hden, hz]
  rw [if_neg (by omega), if_neg (by omega)]

/-- C11 (scrollbar round trip), as amended, for the `float32` arithmetic of the
code (any rounding with the two properties of `RoundsLike32`), `2 <= N <= 8192`
items, height `4 <= H <= 512` and a selection `s` with `0 <= s <= N-1`: the
selection `s'` that `recalcPositionByScroll` computes from the thumb row of
`redrawScroll` satisfies `0 <= s' <= s`; it is within 1 of `s` when
`10 (N-1) < 19 (H-3)`, and also when `N-1` and `H-3` are coprime and
`10 (N-2) < 19 (H-3)`; it equals `s` when `10 (N-1) < 9 (H-3)`, and at both ends
`s = 0` and `s = N-1`. -/
theorem C11_roundTrip_float32 (fm : FloatModel) (hr : RoundsLike32 fm.rnd) (l : ListBox)
    (hN : (2 : Int) ≤ l.items.length) (hN2 : (l.items.length : Int) ≤ 8192)
    (hH : 4 ≤ l.height) (hH2 : l.height ≤ 512) (hs0 : 0 ≤ l.currSelection)
    (hs1 : l.currSelection ≤ (l.items.length : Int) - 1) :
    0 ≤ roundTrip fm l ∧ roundTrip fm l ≤ l.currSelection ∧
    ((10 * ((l.items.length : Int) - 1) < 19 * (l.height - 3) ∨
        (Int.gcd ((l.items.length : Int) - 1) (l.height - 3) = 1 ∧
          10 * ((l.items.length : Int) - 2) < 19 * (l.height - 3))) →
      l.currSelection - 1 ≤ roundTrip fm l) ∧
    (10 * ((l.items.length : Int) - 1) < 9 * (l.height - 3) →
      roundTrip fm l = l.currSelection) ∧
    (l.currSelection = 0 ∨ l.currSelection = (l.items.length : Int) - 1 →
      roundTrip fm l = l.currSelection) := by
  obtain ⟨y, R, hy, hy0, hR0, hRm, hmy, hRint, hRend⟩ := thumb_core fm.rnd hr l.currSelection
    ((l.items.length : Int) - 1) (l.height - 3) (by omega) (by omega) (by omega) (by omega)
    hs0 hs1
  obtain ⟨i0, i1, i2, i3, i4, i5⟩ := inverse_core fm.rnd hr l.currSelection
    ((l.items.length : Int) - 1) (l.height - 3) y R (by omega) (by omega) (by omega) (by omega)
    hs0 hs1 hy0 hR0 hmy
  obtain ⟨hb, hi, hh⟩ := redrawScroll_buttonPos fm l (by omega) (by omega)
  rw [hy] at hb
  have hden : fm.rnd ((l.height - 3 : Int) : ℚ) ≠ 0 := by
    rw [hr.1 (l.height - 3) (by omega) (by omega)]
    have : l.height - 3 ≠ 0 := by omega
    exact_mod_cast this
  have hrt : roundTrip fm l = ⌊fm.rnd (fm.rnd (fm.rnd (fm.rnd
      ((((l.items.length : Int) - 1 : Int)) : ℚ) * fm.rnd (y : ℚ)) /
      fm.rnd ((l.height - 3 : Int) : ℚ)) + fm.rnd (9 / 10))⌋ := by
    unfold roundTrip
    apply recalcPositionByScroll_sel
    · rw [hi]; exact hN
    · rw [hh]; exact hden
    · rw [hi, hh, hb, add_sub_cancel_right]
      exact truncToInt_of_nonneg i0
    · exact i1
    · rw [hi]; omega
  rw [hrt]
  refine ⟨i1, i2, ?_, ?_, fun he => i5 (hRend he)⟩
  · rintro (h | ⟨hg, h⟩)
    · exact i3 (by omega) (by omega)
    · have hRlt : R ≠ (l.items.length : Int) - 1 := by
        intro hR
        obtain ⟨hpos, hlt⟩ := hRint hR
        have hdvd : ((l.items.length : Int) - 1) ∣ l.currSelection * (l.height - 3) :=
          ⟨y + 1, by rw [mul_add, hmy, hR]; ring⟩
        have hdvd2 : ((l.items.length : Int) - 1) ∣ l.currSelection :=
          Int.dvd_of_dvd_mul_left_of_gcd_one hdvd hg
        have := Int.le_of_dvd hpos hdvd2
        omega
      exact i3 (by omega) (by omega)
  · intro h
    exact i4 (by omega) (by omega)

/-- The statement of C11 applied twice: in exact arithmetic to 4 items at height
9 with selection 2, where `10 (N-1) = 30 < 54 = 9 (H-3)` and the round trip
returns 2; and in binary32 arithmetic to 23 items at height 25 with selection
13, where `10 (N-1) = 220 < 418 = 19 (H-3)` and the round trip returns 12 or
13. -/
theorem C11_roundTrip_float32_witness :
    roundTrip exactArith (sampleHeight 9 ["a", "b", "c", "d"] 2 0) = 2 ∧
    12 ≤ roundTrip binary32 (sampleHeight 25 (List.replicate 23 "") 13 0) ∧
    roundTrip binary32 (sampleHeight 25 (List.replicate 23 "") 13 0) ≤ 13 := by
  have h1 := C11_roundTrip_float32 exactArith RoundsLike32_id
    (sampleHeight 9 ["a", "b", "c", "d"] 2 0) (by decide) (by decide) (by decide) (by decide)
    (by decide) (by decide)
  have h2 := C11_roundTrip_float32 binary32 RoundsLike32_rnd32
    (sampleHeight 25 (List.replicate 23 "") 13 0) (by decide) (by decide) (by decide)
    (by decide) (by decide) (by decide)
  have e : (sampleHeight 25 (List.replicate 23 "") 13 0).currSelection = 13 := rfl
  have h3 := h2.2.2.1 (Or.inl (by decide))
  have h4 := h2.2.1
  rw [e] at h3 h4
  exact ⟨h1.2.2.2.1 (by decide), by omega, h4⟩

/-- C11 as stated fails for 4 items at height 4 with selection 2, where
`N-1 = 3` is divisible by `H-3 = 1`: the thumb row is `int(2/3 * 1) + 1 = 1` and
the inverse mapping gives `int(3 * 0 / 1 + 0.9) = 0`, which is neither 2 nor
within 1 of 2, in exact arithmetic and in `float32` arithmetic alike.  In
`float32` arithmetic the round trip is not exact for `N-1 = H-3` either: with 23
items at height 25, selection 13 comes back as 12. -/
theorem C11_roundTrip_off_by_two :
    (2 : Int) ≤ (sampleHeight 4 ["a", "b", "c", "d"] 2 0).items.length ∧
    4 ≤ (sampleHeight 4 ["a", "b", "c", "d"] 2 0).height ∧
    ((sampleHeight 4 ["a", "b", "c", "d"] 2 0).height - 3) ∣
      (((sampleHeight 4 ["a", "b", "c", "d"] 2 0).items.length : Int) - 1) ∧
    (sampleHeight 4 ["a", "b", "c", "d"] 2 0).currSelection = 2 ∧
    (redrawScroll exactArith (sampleHeight 4 ["a", "b", "c", "d"] 2 0)).2 = 1 ∧
    roundTrip exactArith (sampleHeight 4 ["a", "b", "c", "d"] 2 0) = 0 ∧
    (redrawScroll binary32 (sampleHeight 4 ["a", "b", "c", "d"] 2 0)).2 = 1 ∧
    roundTrip binary32 (sampleHeight 4 ["a", "b", "c", "d"] 2 0) = 0 ∧
    (redrawScroll binary32 (sampleHeight 25 (List.replicate 23 "") 13 0)).2 = 13 ∧
    roundTrip binary32 (sampleHeight 25 (List.replicate 23 "") 13 0) = 12 := by
  refine ⟨by decide, by decide, by decide, by decide, ?_, ?_, ?_, ?_, ?_, ?_⟩ <;> decide!

/-! ## `moveUp` at the top (C12, C13) -/

theorem moveUp_of_selected (l : ListBox) (h1 : ¬ (l.topLine = 0 ∧ l.currSelection = 0))
    (h2 : l.currSelection ≠ -1) :
    moveUp l = EnsureVisible { l with currSelection := l.currSelection - 1 } := by
  unfold moveUp
  rw [if_neg h1, if_neg h2]

theorem moveUp_of_unselected (l : ListBox) (h : l.currSelection = -1)
    (hne : l.items.length ≠ 0) : moveUp l = { l with currSelection := 0 } := by
  unfold moveUp
  rw [if_neg (by omega), if_pos h, if_pos hne]

/-- C12 (`moveUp` at selection 0), as amended: in a state whose selection is 0,
`moveUp` leaves the state unchanged exactly when `topLine` is 0; when `topLine`
is not 0 it moves the selection to -1 and keeps `topLine`. -/
theorem C12_moveUp_at_selection_zero (l : ListBox) (h0 : l.currSelection = 0) :
    (l.topLine = 0 → moveUp l = l) ∧
    (l.topLine ≠ 0 → (moveUp l).currSelection = -1 ∧ (moveUp l).topLine = l.topLine) ∧
    (moveUp l = l ↔ l.topLine = 0) := by
  have hpos : l.topLine = 0 → moveUp l = l := by
    intro ht
    unfold moveUp
    rw [if_pos ⟨ht, h0⟩]
  have hneg : l.topLine ≠ 0 →
      (moveUp l).currSelection = -1 ∧ (moveUp l).topLine = l.topLine := by
    intro ht
    rw [moveUp_of_selected l (by tauto) (by omega)]
    have e : EnsureVisible { l with currSelection := l.currSelection - 1 } =
        { l with currSelection := l.currSelection - 1 } := by
      unfold EnsureVisible
      simp only []
      rw [if_pos (Or.inr (by omega))]
    rw [e]
    exact ⟨by show l.currSelection - 1 = -1; omega, rfl⟩
  refine ⟨hpos, hneg, ⟨fun e => ?_, hpos⟩⟩
  by_contra ht
  have := (hneg ht).1
  rw [e] at this
  omega

/-- The statement of C12 applied to three items with selection 0 at the top. -/
theorem C12_moveUp_at_selection_zero_witness :
    (sample ["a", "b", "c"] 0 0 0).currSelection = 0 ∧
    moveUp (sample ["a", "b", "c"] 0 0 0) = sample ["a", "b", "c"] 0 0 0 :=
  ⟨by decide, (C12_moveUp_at_selection_zero (sample ["a", "b", "c"] 0 0 0) (by decide)).1
    (by decide)⟩

/-- C12 as stated, for every state with selection 0, fails when `topLine` is not
0: with four items, height 3, selection 0 and `topLine` 1, `moveUp` passes the
guard `topLine == 0 && currSelection == 0` and decrements the selection to -1. -/
theorem C12_moveUp_changes_selection :
    (sample ["a", "b", "c", "d"] 0 0 1).currSelection = 0 ∧
    (moveUp (sample ["a", "b", "c", "d"] 0 0 1)).currSelection = -1 ∧
    (moveUp (sample ["a", "b", "c", "d"] 0 0 1)).topLine = 1 := by
  decide

/-! ## `ProcessEvent` (C13 - C16) -/

theorem ProcessEvent_mouse (fm : FloatModel) (l : ListBox) (ev : Event)
    (hact : l.active = true) (hen : l.enabled = true) (hty : ev.type = .EventMouse) :
    ProcessEvent fm l ev = processMouseClick fm l ev := by
  unfold ProcessEvent
  rw [if_neg (by simp [hact, hen]), hty]

theorem ProcessEvent_key (fm : FloatModel) (l : ListBox) (ev : Event)
    (hact : l.active = true) (hen : l.enabled = true) (hty : ev.type = .EventKey) :
    ProcessEvent fm l ev =
      match ev.key with
      | .KeyHome => some ⟨home l, true, none⟩
      | .KeyEnd => some ⟨end_ l, true, none⟩
      | .KeyArrowUp => some ⟨moveUp l, true, none⟩
      | .KeyArrowDown => some ⟨moveDown l, true, none⟩
      | .KeyCtrlM =>
        if l.currSelection ≠ -1 ∧ l.onSelectItem = true then
          match SelectedItemText l with
          | none => none
          | some msg => some ⟨l, false, some ⟨l.currSelection, msg⟩⟩
        else some ⟨l, false, none⟩
      | _ => some ⟨l, false, none⟩ := by
  unfold ProcessEvent
  rw [if_neg (by simp [hact, hen]), hty]

/-- A left click in the scrollbar column. -/
theorem processMouseClick_scroll (fm : FloatModel) (l : ListBox) (ev : Event)
    (hkey : ev.key = .MouseLeft) (hdx : ev.x - l.x = l.width - 1) :
    processMouseClick fm l ev =
      if ev.y - l.y < 0 ∨ ev.y - l.y ≥ l.height ∨ (l.items.length : Int) < 2 then
        some ⟨l, true, none⟩
      else if ev.y - l.y = 0 then some ⟨moveUp l, true, none⟩
      else if ev.y - l.y = l.height - 1 then some ⟨moveDown l, true, none⟩
      else some ⟨recalcPositionByScroll fm { l with buttonPos := ev.y - l.y }, true, none⟩ := by
  unfold processMouseClick
  rw [if_neg (by simp [hkey])]
  simp only []
  rw [if_pos hdx]

theorem moveUp_at_top (l : ListBox) (ht : l.topLine = 0) (hs : l.currSelection = 0) :
    moveUp l = l := by
  unfold moveUp
  rw [if_pos ⟨ht, hs⟩]

/-- C13 (click on the scroll-up arrow), as amended: for a focused, enabled list
box with at least 2 items, a left click at `dx = width-1`, `dy = 0` returns true
and starts no callback; when the height is positive the click is `moveUp`: a
list box without selection gets selection 0, selection 0 with `topLine` 0 stays,
and every other selection decreases by one. -/
theorem C13_click_up_arrow (fm : FloatModel) (l : ListBox) (ev : Event)
    (hact : l.active = true) (hen : l.enabled = true) (hN : (2 : Int) ≤ l.items.length)
    (hty : ev.type = .EventMouse) (hkey : ev.key = .MouseLeft)
    (hdx : ev.x - l.x = l.width - 1) (hdy : ev.y - l.y = 0) :
    ∃ o, ProcessEvent fm l ev = some o ∧ o.handled = true ∧ o.emitted = none ∧
      (0 < l.height → o.state = moveUp l ∧
        (l.currSelection = -1 → o.state.currSelection = 0) ∧
        (l.currSelection = 0 → l.topLine = 0 → o.state.currSelection = 0) ∧
        (l.currSelection ≠ -1 → ¬ (l.currSelection = 0 ∧ l.topLine = 0) →
          o.state.currSelection = l.currSelection - 1) ∧
        (l.currSelection ≠ -1 → o.state.currSelection ≤ l.currSelection)) ∧
      (l.height ≤ 0 → o.state = l) := by
  rw [ProcessEvent_mouse fm l ev hact hen hty, processMouseClick_scroll fm l ev hkey hdx, hdy]
  by_cases hH : 0 < l.height
  · rw [if_neg (by omega), if_pos rfl]
    refine ⟨_, rfl, rfl, rfl, fun _ => ⟨rfl, ?_, ?_, ?_, ?_⟩, fun h => by omega⟩
    · intro hs
      rw [moveUp_of_unselected l hs (by omega)]
    · intro hs ht
      rw [(moveUp_at_top l ht hs)]
      exact hs
    · intro hs hnot
      rw [moveUp_of_selected l (by tauto) hs, EnsureVisible_currSelection]
    · intro hs
      by_cases htop : l.topLine = 0 ∧ l.currSelection = 0
      · rw [moveUp_at_top l htop.1 htop.2]
      · rw [moveUp_of_selected l htop hs, EnsureVisible_currSelection]
        show l.currSelection - 1 ≤ l.currSelection
        omega
  · rw [if_pos (by omega)]
    exact ⟨_, rfl, rfl, rfl, fun h => absurd h hH, fun _ => rfl⟩
/-- The statement of C13 applied to two items with selection 1 and a click at
column `width-1 = 4`, row 0: the click is handled and the selection becomes 0. -/
theorem C13_click_up_arrow_witness :
    (sample ["a", "b"] 0 1 0).active = true ∧ (sample ["a", "b"] 0 1 0).enabled = true ∧
    (2 : Int) ≤ (sample ["a", "b"] 0 1 0).items.length ∧
    ∃ o, ProcessEvent exactArith (sample ["a", "b"] 0 1 0) (clickEvent 4 0) = some o ∧
      o.handled = true ∧ o.state.currSelection = 0 := by
  refine ⟨by decide, by decide, by decide, ?_⟩
  obtain ⟨o, h1, h2, _, h4, _⟩ := C13_click_up_arrow exactArith (sample ["a", "b"] 0 1 0)
    (clickEvent 4 0) (by decide) (by decide) (by decide) (by decide) (by decide) (by decide)
    (by decide)
  refine ⟨o, h1, h2, ?_⟩
  rw [(h4 (by decide)).2.2.2.1 (by decide) (by decide)]
  decide

/-- C13 as stated fails when nothing is selected: with two items and selection
-1, the click on the scroll-up arrow is handled and `moveUp` selects item 0, so
the selection increases from -1 to 0. -/
theorem C13_click_up_arrow_selects_first :
    (sample ["a", "b"] 0 (-1) 0).active = true ∧ (sample ["a", "b"] 0 (-1) 0).enabled = true ∧
    (sample ["a", "b"] 0 (-1) 0).currSelection = -1 ∧
    (clickEvent 4 0).x - (sample ["a", "b"] 0 (-1) 0).x = (sample ["a", "b"] 0 (-1) 0).width - 1 ∧
    (clickEvent 4 0).y - (sample ["a", "b"] 0 (-1) 0).y = 0 ∧
    ProcessEvent exactArith (sample ["a", "b"] 0 (-1) 0) (clickEvent 4 0) =
      some ⟨sample ["a", "b"] 0 0 0, true, none⟩ := by
  refine ⟨by decide, by decide, by decide, by decide, by decide, ?_⟩
  rw [ProcessEvent_mouse exactArith _ _ (by decide) (by decide) (by decide),
    processMouseClick_scroll exactArith _ _ (by decide) (by decide)]
  rfl

/-- C14 (selection-change notification), evaluated on the code: in a focused,
enabled list box with a registered callback, items a, b and selection 0, the
Down-arrow key moves the selection to 1 and the End key does too, and a click on
the scroll-down arrow (column 4, row 2) as well, all without starting the
callback; only a click on an item row (column 0, row 1) starts it, with
`Y = 1` and `Msg = "b"`. -/
theorem C14_navigation_keys_do_not_notify (fm : FloatModel) :
    (OnSelectItem (sample ["a", "b"] 0 0 0) true).onSelectItem = true ∧
    (OnSelectItem (sample ["a", "b"] 0 0 0) true).currSelection = 0 ∧
    ProcessEvent fm (OnSelectItem (sample ["a", "b"] 0 0 0) true) (keyEvent .KeyArrowDown) =
      some ⟨OnSelectItem (sample ["a", "b"] 0 1 0) true, true, none⟩ ∧
    ProcessEvent fm (OnSelectItem (sample ["a", "b"] 0 0 0) true) (keyEvent .KeyEnd) =
      some ⟨OnSelectItem (sample ["a", "b"] 0 1 0) true, true, none⟩ ∧
    ProcessEvent fm (OnSelectItem (sample ["a", "b"] 0 0 0) true) (clickEvent 4 2) =
      some ⟨OnSelectItem (sample ["a", "b"] 0 1 0) true, true, none⟩ ∧
    ProcessEvent fm (OnSelectItem (sample ["a", "b"] 0 0 0) true) (clickEvent 0 1) =
      some ⟨OnSelectItem (sample ["a", "b"] 0 1 0) true, true, some ⟨1, "b"⟩⟩ := by
  refine ⟨rfl, rfl, ?_, ?_, ?_, ?_⟩
  · rw [ProcessEvent_key fm _ _ (by decide) (by decide) (by decide)]
    decide
  · rw [ProcessEvent_key fm _ _ (by decide) (by decide) (by decide)]
    decide
  · rw [ProcessEvent_mouse fm _ _ (by decide) (by decide) (by decide),
      processMouseClick_scroll fm _ _ (by decide) (by decide)]
    rfl
  · rw [ProcessEvent_mouse fm _ _ (by decide) (by decide) (by decide)]
    simp [processMouseClick, clickEvent, OnSelectItem, sample, SelectItem, EnsureVisible,
      SelectedItemText]

/-- C15 (handled result for keys), evaluated on the code: in a focused, enabled
list box with a registered callback, item a and selection 0, the Enter key
starts the callback with `Y = 0`, `Msg = "a"`, and `ProcessEvent` returns false:
the `KeyCtrlM` case has no `return true` and runs into the final
`return false`.  The four navigation keys return true and another key returns
false. -/
theorem C15_enter_returns_false (fm : FloatModel) :
    (OnSelectItem (sample ["a"] 0 0 0) true).active = true ∧
    (OnSelectItem (sample ["a"] 0 0 0) true).enabled = true ∧
    ProcessEvent fm (OnSelectItem (sample ["a"] 0 0 0) true) (keyEvent .KeyCtrlM) =
      some ⟨OnSelectItem (sample ["a"] 0 0 0) true, false, some ⟨0, "a"⟩⟩ ∧
    (ProcessEvent fm (OnSelectItem (sample ["a"] 0 0 0) true) (keyEvent .KeyHome)).map
      Outcome.handled = some true ∧
    (ProcessEvent fm (OnSelectItem (sample ["a"] 0 0 0) true) (keyEvent .KeyEnd)).map
      Outcome.handled = some true ∧
    (ProcessEvent fm (OnSelectItem (sample ["a"] 0 0 0) true) (keyEvent .KeyArrowUp)).map
      Outcome.handled = some true ∧
    (ProcessEvent fm (OnSelectItem (sample ["a"] 0 0 0) true) (keyEvent .KeyArrowDown)).map
      Outcome.handled = some true ∧
    (ProcessEvent fm (OnSelectItem (sample ["a"] 0 0 0) true) (keyEvent (.other 32))).map
      Outcome.handled = some false := by
  refine ⟨rfl, rfl, ?_, ?_, ?_, ?_, ?_, ?_⟩ <;>
    rw [ProcessEvent_key fm _ _ (by decide) (by decide) (by decide)] <;> decide

/-- C16 (an unfocused or disabled list box declines): when the list box is not
active or not enabled, `ProcessEvent` returns false for every event, starts no
callback, and leaves the whole state unchanged (so items, selection, `topLine`,
`maxItems` and `buttonPos`). -/
theorem C16_inactive_declines (fm : FloatModel) (l : ListBox) (ev : Event)
    (h : l.active = false ∨ l.enabled = false) :
    ProcessEvent fm l ev = some ⟨l, false, none⟩ := by
  unfold ProcessEvent
  rw [if_pos h]

/-- The statement of C16 applied to a disabled list box and the Down-arrow key. -/
theorem C16_inactive_declines_witness :
    ({ sample ["a", "b"] 0 0 0 with enabled := false }).enabled = false ∧
    ProcessEvent exactArith { sample ["a", "b"] 0 0 0 with enabled := false }
        (keyEvent .KeyArrowDown) =
      some ⟨{ sample ["a", "b"] 0 0 0 with enabled := false }, false, none⟩ :=
  ⟨rfl, C16_inactive_declines exactArith _ _ (Or.inr rfl)⟩

/-! ## Repeated `moveDown` (C17) -/

theorem moveDown_at_last (l : ListBox)
    (h : l.currSelection = (l.items.length : Int) - 1) : moveDown l = l := by
  unfold moveDown
  simp only []
  rw [if_pos (Or.inr h)]

/-- One `moveDown` from a state whose `topLine` is `max 0 (selection - H + 1)`. -/
theorem moveDown_step (l : ListBox) (hH : 0 < l.height) (hN : 1 ≤ l.items.length)
    (hlo : -1 ≤ l.currSelection) (hhi : l.currSelection ≤ (l.items.length : Int) - 1)
    (htop : l.topLine = max 0 (l.currSelection - l.height + 1)) :
    (moveDown l).items = l.items ∧ (moveDown l).height = l.height ∧
    (moveDown l).currSelection = min (l.currSelection + 1) ((l.items.length : Int) - 1) ∧
    (moveDown l).topLine = max 0 ((moveDown l).currSelection - l.height + 1) := by
  by_cases h : l.currSelection = (l.items.length : Int) - 1
  · rw [moveDown_at_last l h]
    exact ⟨rfl, rfl, by omega, htop⟩
  · have e : moveDown l = EnsureVisible { l with currSelection := l.currSelection + 1 } := by
      unfold moveDown
      simp only []
      rw [if_neg (by omega)]
    rw [e, EnsureVisible_items, EnsureVisible_height, EnsureVisible_currSelection]
    refine ⟨rfl, rfl, by show l.currSelection + 1 = _; omega, ?_⟩
    rcases EnsureVisible_cases { l with currSelection := l.currSelection + 1 } with
      ⟨c, e2⟩ | ⟨c1, c2, c3, e2⟩ | ⟨c1, c2, c3, c4, e2⟩ | ⟨c1, c2, c3, c4, e2⟩
    all_goals
      rw [e2]
      simp only [] at *
      omega

/-- C17 (repeated `moveDown` from a fresh list): from a list box with `N >= 1`
items, positive height `H`, no selection and `topLine = 0`, after `n` calls of
`moveDown` (any `n`, so in particular `n >= 1`) the selection is `min(n-1, N-1)`
and `topLine` is `max(0, selection - H + 1)`; once `n >= N` the selection is `N-1`, `topLine` is
`max(0, N - H)`, and a further `moveDown` changes nothing. -/
theorem C17_repeated_moveDown (l : ListBox) (n : Nat) (hN : 1 ≤ l.items.length)
    (hH : 0 < l.height) (hsel : l.currSelection = -1) (htop : l.topLine = 0) :
    (moveDown^[n] l).currSelection = min ((n : Int) - 1) ((l.items.length : Int) - 1) ∧
    (moveDown^[n] l).topLine = max 0 ((moveDown^[n] l).currSelection - l.height + 1) ∧
    (moveDown^[n] l).items = l.items ∧
    (l.items.length ≤ n →
      (moveDown^[n] l).currSelection = (l.items.length : Int) - 1 ∧
      (moveDown^[n] l).topLine = max 0 ((l.items.length : Int) - l.height) ∧
      moveDown (moveDown^[n] l) = moveDown^[n] l) := by
  have key : ∀ k : Nat, (moveDown^[k] l).items = l.items ∧ (moveDown^[k] l).height = l.height ∧
      (moveDown^[k] l).currSelection = min ((k : Int) - 1) ((l.items.length : Int) - 1) ∧
      (moveDown^[k] l).topLine = max 0 ((moveDown^[k] l).currSelection - l.height + 1) := by
    intro k
    induction k with
    | zero =>
      rw [Function.iterate_zero, id]
      exact ⟨rfl, rfl, by omega, by omega⟩
    | succ k ih =>
      obtain ⟨i1, i2, i3, i4⟩ := ih
      rw [Function.iterate_succ_apply']
      obtain ⟨s1, s2, s3, s4⟩ := moveDown_step (moveDown^[k] l) (by rw [i2]; exact hH)
        (by rw [i1]; exact hN) (by rw [i3]; omega) (by rw [i1, i3]; omega) (by rw [i2]; exact i4)
      rw [i1, i3] at s3
      rw [i2] at s4
      exact ⟨s1.trans i1, s2.trans i2, by rw [s3]; push_cast; omega, s4⟩
  obtain ⟨k1, k2, k3, k4⟩ := key n
  refine ⟨k3, k4, k1, fun hge => ?_⟩
  have hs : (moveDown^[n] l).currSelection = (l.items.length : Int) - 1 := by omega
  refine ⟨hs, by omega, moveDown_at_last _ (by rw [k1]; exact hs)⟩

/-- The statement of C17 applied to ten items at height 4: ten (and twelve)
calls of `moveDown` end with selection 9 and `topLine` 6. -/
theorem C17_repeated_moveDown_witness :
    (moveDown^[10] (sampleHeight 4 ["0", "1", "2", "3", "4", "5", "6", "7", "8", "9"] (-1)
      0)).currSelection = 9 ∧
    (moveDown^[10] (sampleHeight 4 ["0", "1", "2", "3", "4", "5", "6", "7", "8", "9"] (-1)
      0)).topLine = 6 ∧
    (moveDown^[12] (sampleHeight 4 ["0", "1", "2", "3", "4", "5", "6", "7", "8", "9"] (-1)
      0)).currSelection = 9 ∧
    (moveDown^[12] (sampleHeight 4 ["0", "1", "2", "3", "4", "5", "6", "7", "8", "9"] (-1)
      0)).topLine = 6 := by
  obtain ⟨a1, a2, _, a4⟩ := C17_repeated_moveDown
    (sampleHeight 4 ["0", "1", "2", "3", "4", "5", "6", "7", "8", "9"] (-1) 0) 10
    (by decide) (by decide) (by decide) (by decide)
  obtain ⟨b1, b2, _, b4⟩ := C17_repeated_moveDown
    (sampleHeight 4 ["0", "1", "2", "3", "4", "5", "6", "7", "8", "9"] (-1) 0) 12
    (by decide) (by decide) (by decide) (by decide)
  refine ⟨?_, ?_, ?_, ?_⟩
  · rw [a1]; decide
  · rw [(a4 (by decide)).2.1]; decide
  · rw [b1]; decide
  · rw [(b4 (by decide)).2.1]; decide

/-! ## The thumb row (C18) -/

theorem redrawScroll_pos (fm : FloatModel) (l : ListBox) (hsel : l.currSelection ≠ -1)
    (hN : (1 : Int) < l.items.length) :
    (redrawScroll fm l).2 =
      if l.height = 3 then 1
      else truncToInt (fm.rnd (fm.rnd (fm.rnd (l.currSelection : ℚ) /
        fm.rnd (((l.items.length : Int) - 1 : Int) : ℚ)) * fm.rnd ((l.height - 3 : Int) : ℚ))) + 1 := by
  unfold redrawScroll
  rw [if_pos hsel, if_pos (show (l.items.length : Int) > 1 from hN)]
  simp only []
  split_ifs <;> rfl

/-- The thumb offset lies between 0 and `d` when the rounding is monotone and
exact on 0, 1 and the three integers involved. -/
theorem thumbOffset_bounds (rnd : ℚ → ℚ) (s m d : Int) (hmono : Monotone rnd)
    (h0 : rnd 0 = 0) (h1 : rnd 1 = 1) (hs : rnd (s : ℚ) = s) (hm : rnd (m : ℚ) = m)
    (hd : rnd (d : ℚ) = d) (hm0 : 0 < m) (hd0 : 0 ≤ d) (hs0 : 0 ≤ s) (hsm : s ≤ m) :
    0 ≤ truncToInt (rnd (rnd (rnd (s : ℚ) / rnd (m : ℚ)) * rnd (d : ℚ))) ∧
    truncToInt (rnd (rnd (rnd (s : ℚ) / rnd (m : ℚ)) * rnd (d : ℚ))) ≤ d ∧
    (s = 0 → truncToInt (rnd (rnd (rnd (s : ℚ) / rnd (m : ℚ)) * rnd (d : ℚ))) = 0) ∧
    (s = m → truncToInt (rnd (rnd (rnd (s : ℚ) / rnd (m : ℚ)) * rnd (d : ℚ))) = d) := by
  rw [hs, hm, hd]
  have hmq : (0 : ℚ) < m := by exact_mod_cast hm0
  have hdq : (0 : ℚ) ≤ d := by exact_mod_cast hd0
  have hsq : (0 : ℚ) ≤ s := by exact_mod_cast hs0
  have hsmq : (s : ℚ) ≤ m := by exact_mod_cast hsm
  have a0 : (0 : ℚ) ≤ (s : ℚ) / m := by positivity
  have a1 : (s : ℚ) / m ≤ 1 := (div_le_one hmq).2 hsmq
  have b0 : 0 ≤ rnd ((s : ℚ) / m) := by
    have := hmono a0
    rwa [h0] at this
  have b1 : rnd ((s : ℚ) / m) ≤ 1 := by
    have := hmono a1
    rwa [h1] at this
  have c0 : 0 ≤ rnd ((s : ℚ) / m) * d := mul_nonneg b0 hdq
  have c1 : rnd ((s : ℚ) / m) * d ≤ d := by nlinarith
  have e0 : 0 ≤ rnd (rnd ((s : ℚ) / m) * d) := by
    have := hmono c0
    rwa [h0] at this
  have e1 : rnd (rnd ((s : ℚ) / m) * d) ≤ d := by
    have := hmono c1
    rwa [hd] at this
  rw [truncToInt_of_nonneg e0]
  refine ⟨Int.floor_nonneg.2 e0, ?_, ?_, ?_⟩
  · have : ((⌊rnd (rnd ((s : ℚ) / m) * d)⌋ : Int) : ℚ) ≤ d := le_trans (Int.floor_le _) e1
    exact_mod_cast this
  · intro hz
    subst hz
    simp [h0]
  · intro hz
    subst hz
    rw [div_self (ne_of_gt hmq), h1, one_mul, hd, Int.floor_intCast]

/-- C18 (thumb row range and endpoints).  The `float32` rounding is any monotone
function that is exact on 0, 1 and on the three integers converted (selection,
`N-1`, `H-3`), which covers exact arithmetic.  Without selection the position is
-1; with a selection and `N <= 1` it is 1; for `N >= 2`, `H >= 3` and
`0 <= s <= N-1` it lies in `[1, H-2]`, is 1 for `s = 0` and `H-2` for
`s = N-1`. -/
theorem C18_thumb_row (fm : FloatModel) (l : ListBox) (hmono : Monotone fm.rnd)
    (h0 : fm.rnd 0 = 0) (h1 : fm.rnd 1 = 1)
    (hs : fm.rnd (l.currSelection : ℚ) = l.currSelection)
    (hm : fm.rnd (((l.items.length : Int) - 1 : Int) : ℚ) = (((l.items.length : Int) - 1 : Int) : ℚ))
    (hd : fm.rnd ((l.height - 3 : Int) : ℚ) = ((l.height - 3 : Int) : ℚ)) :
    (l.currSelection = -1 → (redrawScroll fm l).2 = -1) ∧
    (l.currSelection ≠ -1 → l.items.length ≤ 1 → (redrawScroll fm l).2 = 1) ∧
    (2 ≤ l.items.length → 3 ≤ l.height → 0 ≤ l.currSelection →
      l.currSelection ≤ (l.items.length : Int) - 1 →
      1 ≤ (redrawScroll fm l).2 ∧ (redrawScroll fm l).2 ≤ l.height - 2 ∧
      (l.currSelection = 0 → (redrawScroll fm l).2 = 1) ∧
      (l.currSelection = (l.items.length : Int) - 1 → (redrawScroll fm l).2 = l.height - 2)) := by
  refine ⟨fun h => ?_, fun h hn => ?_, fun hN hH hs0 hs1 => ?_⟩
  · unfold redrawScroll
    rw [if_neg (by simp [h])]
  · unfold redrawScroll
    rw [if_pos h, if_neg (by omega)]
  · obtain ⟨t0, t1, t2, t3⟩ := thumbOffset_bounds fm.rnd l.currSelection
      ((l.items.length : Int) - 1) (l.height - 3) hmono h0 h1 hs hm hd (by omega) (by omega)
      hs0 hs1
    rw [redrawScroll_pos fm l (by omega) (by omega)]
    split_ifs with h3
    · exact ⟨by omega, by omega, fun _ => rfl, fun _ => by omega⟩
    · exact ⟨by omega, by omega, fun hz => by rw [t2 hz]; rfl, fun hz => by rw [t3 hz]; omega⟩

/-- The statement of C18 applied, in exact arithmetic, to ten items at height 6
with the last item selected: the thumb is on row `H-2 = 4`. -/
theorem C18_thumb_row_witness :
    (redrawScroll exactArith
      (sampleHeight 6 ["0", "1", "2", "3", "4", "5", "6", "7", "8", "9"] 9 0)).2 = 4 := by
  have h := (C18_thumb_row exactArith
    (sampleHeight 6 ["0", "1", "2", "3", "4", "5", "6", "7", "8", "9"] 9 0) monotone_id rfl rfl
    rfl rfl rfl).2.2 (by decide) (by decide) (by decide) (by decide)
  rw [h.2.2.2 (by decide)]
  decide

/-! ## The invariant `Inv` (C19) -/

/-- `Inv` as linear arithmetic over the item count, selection, `topLine` and
height. -/
theorem Inv_iff (l : ListBox) :
    Inv l ↔ -1 ≤ l.currSelection ∧ l.currSelection < l.items.length ∧ 0 ≤ l.topLine ∧
      ((l.items.length : Int) ≤ l.height ∨ l.topLine ≤ l.items.length - l.height) ∧
      (l.height < (l.items.length : Int) ∨ l.topLine = 0) ∧
      (l.currSelection ≠ -1 ∨ l.topLine = 0) ∧
      (l.currSelection = -1 ∨
        (l.topLine ≤ l.currSelection ∧ l.currSelection ≤ l.topLine + l.height - 1)) := by
  unfold Inv StateInv Visible
  constructor
  · rintro ⟨⟨a, b, c, d⟩, e, f⟩
    refine ⟨a, b, c, ?_, ?_, ?_, ?_⟩
    · split_ifs at d <;> omega
    · split_ifs at d <;> omega
    · by_cases hs : l.currSelection = -1
      · exact Or.inr (e hs)
      · exact Or.inl hs
    · by_cases hs : l.currSelection = -1
      · exact Or.inl hs
      · exact Or.inr (f hs)
  · rintro ⟨a, b, c, d1, d2, e, f⟩
    refine ⟨⟨a, b, c, ?_⟩, fun hs => by omega, fun hs => by omega⟩
    split_ifs <;> omega

/-- Selecting any index of the item range and calling `EnsureVisible` keeps
`Inv`. -/
theorem Inv_select (l : ListBox) (hH : 0 < l.height) (h : Inv l) (z : Int) (hz0 : 0 ≤ z)
    (hz1 : z < l.items.length) : Inv (EnsureVisible { l with currSelection := z }) := by
  rw [Inv_iff] at h ⊢
  rcases EnsureVisible_cases { l with currSelection := z } with
    ⟨c, e⟩ | ⟨c1, c2, c3, e⟩ | ⟨c1, c2, c3, c4, e⟩ | ⟨c1, c2, c3, c4, e⟩
  all_goals
    rw [e]
    simp only [] at *
    omega
theorem Inv_NewListBox (AutoSize : Int) (base : ControlBase) (width height : Int) :
    Inv (NewListBox AutoSize base width height) := by
  have e1 : (NewListBox AutoSize base width height).items = [] := rfl
  have e2 : (NewListBox AutoSize base width height).currSelection = -1 := rfl
  have e3 : (NewListBox AutoSize base width height).topLine = 0 := rfl
  rw [Inv_iff, e1, e2, e3, List.length_nil]
  omega

theorem Inv_AddItem (l : ListBox) (item : String) (h : Inv l) : Inv (AddItem l item).1 := by
  obtain ⟨e1, e2, e3⟩ := AddItem_frame l item
  rw [Inv_iff] at h ⊢
  rw [e1, e2, e3]
  rcases AddItem_length l item with e | ⟨_, e⟩ <;> rw [e] <;> omega

theorem Inv_Clear (l : ListBox) : Inv (Clear l) := by
  have e1 : (Clear l).items = [] := rfl
  have e2 : (Clear l).currSelection = -1 := rfl
  have e3 : (Clear l).topLine = 0 := rfl
  rw [Inv_iff, e1, e2, e3, List.length_nil]
  omega

theorem Inv_SelectItem (l : ListBox) (id : Int) (hH : 0 < l.height) (h : Inv l) :
    Inv (SelectItem l id).1 := by
  by_cases hid : (l.items.length : Int) ≤ id ∨ id < 0
  · have e : SelectItem l id = (l, false) := if_pos hid
    rw [e]
    exact h
  · have e : SelectItem l id = (EnsureVisible { l with currSelection := id }, true) := if_neg hid
    rw [e]
    exact Inv_select l hH h id (by omega) (by omega)

theorem SelectItem_height (l : ListBox) (id : Int) : (SelectItem l id).1.height = l.height := by
  unfold SelectItem
  split_ifs
  · rfl
  · exact EnsureVisible_height _

theorem Inv_EnsureVisible (l : ListBox) (h : Inv l) : Inv (EnsureVisible l) := by
  rw [Inv_iff] at h ⊢
  rcases EnsureVisible_cases l with
    ⟨c, e⟩ | ⟨c1, c2, c3, e⟩ | ⟨c1, c2, c3, c4, e⟩ | ⟨c1, c2, c3, c4, e⟩
  all_goals
    rw [e]
    try dsimp only at *
    omega

theorem Inv_home (l : ListBox) (hH : 0 < l.height) (h : Inv l) :
    Inv (home l) ∧ (home l).height = l.height := by
  rw [Inv_iff] at h ⊢
  unfold home
  dsimp only
  split_ifs with hn
  · refine ⟨?_, rfl⟩
    dsimp only
    omega
  · refine ⟨?_, rfl⟩
    dsimp only
    omega

theorem Inv_end (l : ListBox) (hH : 0 < l.height) (h : Inv l) :
    Inv (end_ l) ∧ (end_ l).height = l.height := by
  rw [Inv_iff] at h ⊢
  unfold end_
  dsimp only
  split_ifs with h1 h2
  · exact ⟨h, rfl⟩
  · refine ⟨?_, rfl⟩
    dsimp only
    omega
  · refine ⟨?_, rfl⟩
    dsimp only
    omega

theorem Inv_moveUp (l : ListBox) (hH : 0 < l.height) (h : Inv l) :
    Inv (moveUp l) ∧ (moveUp l).height = l.height := by
  unfold moveUp
  split_ifs with h1 h2 h3
  · exact ⟨h, rfl⟩
  · refine ⟨?_, rfl⟩
    rw [Inv_iff] at h ⊢
    dsimp only
    omega
  · exact ⟨h, rfl⟩
  · have hb := (Inv_iff l).1 h
    exact ⟨Inv_select l hH h _ (by omega) (by omega), EnsureVisible_height _⟩

theorem Inv_moveDown (l : ListBox) (hH : 0 < l.height) (h : Inv l) :
    Inv (moveDown l) ∧ (moveDown l).height = l.height := by
  unfold moveDown
  simp only []
  split_ifs with h1
  · exact ⟨h, rfl⟩
  · have hb := (Inv_iff l).1 h
    exact ⟨Inv_select l hH h _ (by omega) (by omega), EnsureVisible_height _⟩

/-- `Inv` depends on the items, the selection, `topLine` and the height only. -/
theorem Inv_congr (l l2 : ListBox) (h : Inv l) (e1 : l2.items = l.items)
    (e2 : l2.currSelection = l.currSelection) (e3 : l2.topLine = l.topLine)
    (e4 : l2.height = l.height) : Inv l2 := by
  rw [Inv_iff] at h ⊢
  rw [e1, e2, e3, e4]
  exact h

theorem Inv_recalcPositionByScroll (fm : FloatModel) (l : ListBox) (hH : 0 < l.height)
    (h : Inv l) :
    Inv (recalcPositionByScroll fm l) ∧ (recalcPositionByScroll fm l).height = l.height := by
  unfold recalcPositionByScroll
  split_ifs with h1
  · exact ⟨h, rfl⟩
  · simp only []
    refine ⟨Inv_select l hH h _ ?_ ?_, EnsureVisible_height _⟩
    · split_ifs <;> omega
    · split_ifs <;> omega
/-- Under `Inv` the index expression of `SelectedItemText` is in range. -/
theorem SelectedItemText_of_Inv (l : ListBox) (h : Inv l) :
    ∃ msg, SelectedItemText l = some msg := by
  have hb := (Inv_iff l).1 h
  unfold SelectedItemText
  split_ifs with h1 h2
  · exact ⟨"", rfl⟩
  · omega
  · have hlt : l.currSelection.toNat < l.items.length := by omega
    exact ⟨l.items[l.currSelection.toNat], by
      rw [List.get?_eq_getElem?, List.getElem?_eq_getElem hlt]⟩

theorem Inv_processMouseClick (fm : FloatModel) (l : ListBox) (ev : Event)
    (hH : 0 < l.height) (h : Inv l) :
    ∃ o, processMouseClick fm l ev = some o ∧ Inv o.state ∧ o.state.height = l.height := by
  unfold processMouseClick
  dsimp only
  split_ifs with h1 h2 h3 h4 h5 h6 h7 h8
  · exact ⟨_, rfl, h, rfl⟩
  · exact ⟨_, rfl, h, rfl⟩
  · exact ⟨_, rfl, Inv_moveUp l hH h⟩
  · exact ⟨_, rfl, Inv_moveDown l hH h⟩
  · have hi : Inv { l with buttonPos := ev.y - l.y } := Inv_congr l _ h rfl rfl rfl rfl
    exact ⟨_, rfl, Inv_recalcPositionByScroll fm _ hH hi⟩
  · exact ⟨_, rfl, h, rfl⟩
  · exact ⟨_, rfl, h, rfl⟩
  · obtain ⟨msg, hmsg⟩ := SelectedItemText_of_Inv _ (Inv_SelectItem l (l.topLine + (ev.y - l.y)) hH h)
    rw [hmsg]
    exact ⟨_, rfl, Inv_SelectItem l _ hH h, SelectItem_height l _⟩
  · exact ⟨_, rfl, Inv_SelectItem l _ hH h, SelectItem_height l _⟩

theorem Inv_ProcessEvent (fm : FloatModel) (l : ListBox) (ev : Event)
    (hH : 0 < l.height) (h : Inv l) :
    ∃ o, ProcessEvent fm l ev = some o ∧ Inv o.state ∧ o.state.height = l.height := by
  by_cases hoff : l.active = false ∨ l.enabled = false
  · exact ⟨⟨l, false, none⟩, if_pos hoff, h, rfl⟩
  · have hact : l.active = true := by
      cases ha : l.active
      · exact absurd (Or.inl ha) hoff
      · rfl
    have hen : l.enabled = true := by
      cases he : l.enabled
      · exact absurd (Or.inr he) hoff
      · rfl
    cases hty : ev.type with
    | EventKey =>
      rw [ProcessEvent_key fm l ev hact hen hty]
      cases ev.key with
      | KeyHome => exact ⟨_, rfl, Inv_home l hH h⟩
      | KeyEnd => exact ⟨_, rfl, Inv_end l hH h⟩
      | KeyArrowUp => exact ⟨_, rfl, Inv_moveUp l hH h⟩
      | KeyArrowDown => exact ⟨_, rfl, Inv_moveDown l hH h⟩
      | KeyCtrlM =>
        dsimp only
        obtain ⟨msg, hmsg⟩ := SelectedItemText_of_Inv l h
        rw [hmsg]
        split_ifs
        · exact ⟨_, rfl, h, rfl⟩
        · exact ⟨_, rfl, h, rfl⟩
      | MouseLeft => exact ⟨_, rfl, h, rfl⟩
      | other code => exact ⟨_, rfl, h, rfl⟩
    | EventMouse =>
      rw [ProcessEvent_mouse fm l ev hact hen hty]
      exact Inv_processMouseClick fm l ev hH h
    | other =>
      refine ⟨⟨l, false, none⟩, ?_, h, rfl⟩
      unfold ProcessEvent
      rw [if_neg hoff, hty]
/-- C19 (`Inv` is preserved by everything except `RemoveItem`): a new list box
satisfies `Inv`, and from every state that satisfies `Inv` with a positive height
the state after `AddItem` (evicting or not), `Clear`, `SelectItem`,
`SetMaxItems`, `EnsureVisible`, `home`, `end`, `moveUp`, `moveDown` satisfies it
again, and `ProcessEvent` returns on every event with a state that satisfies it,
whatever the `float32` arithmetic of the track click yields; the height is never
changed. -/
theorem C19_Inv_preserved (fm : FloatModel) (l : ListBox) (hH : 0 < l.height) (h : Inv l) :
    (∀ (AutoSize : Int) (base : ControlBase) (width height : Int),
      Inv (NewListBox AutoSize base width height)) ∧
    (∀ item, Inv (AddItem l item).1 ∧ (AddItem l item).1.height = l.height) ∧
    (Inv (Clear l) ∧ (Clear l).height = l.height) ∧
    (∀ id, Inv (SelectItem l id).1 ∧ (SelectItem l id).1.height = l.height) ∧
    (∀ max, Inv (SetMaxItems l max) ∧ (SetMaxItems l max).height = l.height) ∧
    (Inv (EnsureVisible l) ∧ (EnsureVisible l).height = l.height) ∧
    (Inv (home l) ∧ (home l).height = l.height) ∧
    (Inv (end_ l) ∧ (end_ l).height = l.height) ∧
    (Inv (moveUp l) ∧ (moveUp l).height = l.height) ∧
    (Inv (moveDown l) ∧ (moveDown l).height = l.height) ∧
    (∀ ev, ∃ o, ProcessEvent fm l ev = some o ∧ Inv o.state ∧ o.state.height = l.height) :=
  ⟨Inv_NewListBox,
    fun item => ⟨Inv_AddItem l item h, (AddItem_frame l item).2.2⟩,
    ⟨Inv_Clear l, rfl⟩,
    fun id => ⟨Inv_SelectItem l id hH h, SelectItem_height l id⟩,
    fun _ => ⟨Inv_congr l _ h rfl rfl rfl rfl, rfl⟩,
    ⟨Inv_EnsureVisible l h, EnsureVisible_height l⟩,
    Inv_home l hH h, Inv_end l hH h, Inv_moveUp l hH h, Inv_moveDown l hH h,
    fun ev => Inv_ProcessEvent fm l ev hH h⟩

/-- The statement of C19 applied to four items at height 3 with selection 3 and
`topLine` 1: the state after `moveUp` and the state after a click on the
scrollbar track (column 4, row 1) satisfy `Inv`. -/
theorem C19_Inv_preserved_witness :
    0 < (sample ["a", "b", "c", "d"] 0 3 1).height ∧
    Inv (sample ["a", "b", "c", "d"] 0 3 1) ∧
    Inv (moveUp (sample ["a", "b", "c", "d"] 0 3 1)) ∧
    ∃ o, ProcessEvent exactArith (sample ["a", "b", "c", "d"] 0 3 1) (clickEvent 4 1) = some o ∧
      Inv o.state := by
  have hinv : Inv (sample ["a", "b", "c", "d"] 0 3 1) := (Inv_iff _).2 (by decide)
  have hall := C19_Inv_preserved exactArith (sample ["a", "b", "c", "d"] 0 3 1) (by decide) hinv
  obtain ⟨o, ho, hi, _⟩ := hall.2.2.2.2.2.2.2.2.2.2 (clickEvent 4 1)
  exact ⟨by decide, hinv, hall.2.2.2.2.2.2.2.2.1.1, o, ho, hi⟩

/-! ## The scroll-down branches of `EnsureVisible` (C20) -/

/-- C20 (the two scroll-down branches coincide), as amended, for the 64-bit
arithmetic of the code: in a representable state with positive height `H`, more
than `H` items and a selection inside the item range, `EnsureVisible` sets
`topLine` to `selection - H + 1` when `selection >= topLine + H` and the
difference `selection - topLine` is below `2^63` (which holds for every
`topLine >= 0`), in either branch (in the `else` branch `length - H` is that
value), and to the selection when `selection < topLine`; items and selection
stay as they are. -/
theorem C20_EnsureVisible64_scroll (l : ListBox) (hrep : Representable l) (hH : 0 < l.height)
    (hlen : l.height < (l.items.length : Int)) (hs0 : 0 ≤ l.currSelection)
    (hs1 : l.currSelection < l.items.length) :
    (l.topLine + l.height ≤ l.currSelection →
      l.currSelection - l.topLine < 9223372036854775808 →
      (EnsureVisible64 l).topLine = l.currSelection - l.height + 1 ∧
      ((l.items.length : Int) - (l.currSelection - l.height + 1) ≤ l.height →
        (l.items.length : Int) - l.height = l.currSelection - l.height + 1)) ∧
    (l.currSelection < l.topLine → (EnsureVisible64 l).topLine = l.currSelection) ∧
    (EnsureVisible64 l).items = l.items ∧
    (EnsureVisible64 l).currSelection = l.currSelection := by
  obtain ⟨hs, ht, hh, hn⟩ := hrep
  have htr := ht
  unfold IsInt64 at htr
  have e := newTop64_of_scroll _ _ l.topLine _ hn hs hh hlen hH hs0
  rw [EnsureVisible64_eq l]
  dsimp only
  refine ⟨fun hd hw => ⟨?_, fun hb => by omega⟩, fun hu => ?_, rfl, rfl⟩
  · rw [e, wrap64_eq _ (by omega) hw]
    split_ifs <;> omega
  · rw [e, wrap64_eq _ (by omega) (by omega)]
    split_ifs <;> omega

/-- The statement of C20 applied to ten items at height 4 and `topLine` 0: with
selection 9 the `else` branch gives `topLine = 6`, with selection 5 the first
branch gives `topLine = 2`. -/
theorem C20_EnsureVisible64_scroll_witness :
    (EnsureVisible64
      (sampleHeight 4 ["0", "1", "2", "3", "4", "5", "6", "7", "8", "9"] 9 0)).topLine = 9 - 4 + 1 ∧
    (EnsureVisible64
      (sampleHeight 4 ["0", "1", "2", "3", "4", "5", "6", "7", "8", "9"] 5 0)).topLine = 5 - 4 + 1 :=
  ⟨((C20_EnsureVisible64_scroll
      (sampleHeight 4 ["0", "1", "2", "3", "4", "5", "6", "7", "8", "9"] 9 0)
      (by decide) (by decide) (by decide) (by decide) (by decide)).1 (by decide) (by decide)).1,
    ((C20_EnsureVisible64_scroll
      (sampleHeight 4 ["0", "1", "2", "3", "4", "5", "6", "7", "8", "9"] 5 0)
      (by decide) (by decide) (by decide) (by decide) (by decide)).1 (by decide) (by decide)).1⟩

/-- C20 as stated fails when `topLine` is the smallest 64-bit integer: with ten
items, height 4 and selection 5 every premise holds (`topLine + H <= 5`), but
`5 - topLine` wraps around to a negative number, so `EnsureVisible` takes the
branch `diff < 0` and sets `topLine` to 5, not to `5 - 4 + 1 = 2`. -/
theorem C20_EnsureVisible64_wraps :
    Representable (sampleHeight 4 ["0", "1", "2", "3", "4", "5", "6", "7", "8", "9"] 5
      (-9223372036854775808)) ∧
    (-9223372036854775808 : Int) + 4 ≤ 5 ∧
    (EnsureVisible64 (sampleHeight 4 ["0", "1", "2", "3", "4", "5", "6", "7", "8", "9"] 5
      (-9223372036854775808))).topLine = 5 ∧
    (5 : Int) - 4 + 1 = 2 := by
  decide

end Clui
